import Mathlib

/-!
# Live-subscriptions tab of FreeTube: fetch, fallback and cache orchestration

A shallow embedding of
`src/renderer/components/subscriptions-live/subscriptions-live.js`.

* The component's `data` fields and the store getters, actions and mutations
  it touches are fields of `Component`; every method is a function taking the
  component (`self`) and returning the updated component.
* Calls that leave the file (`getLocalChannelLiveStreams`, `invidiousAPICall`,
  `fetch`, `parseYouTubeRSSFeed`, the `addPublishedDates*` helpers) are read
  from an `AttemptWorld`: what each call site returns or throws during one
  invocation of a strategy function.  A channel task sees one `AttemptWorld`
  per value of `failedAttempts`.
* A `try { .. } catch` is an `Except` value for the `try` block followed by a
  match whose `.error` branch is the `catch` block.
* `Component.attempts`, `toasts`, `progressLog` and `cacheWrites` record, in
  order, the strategy functions entered, the `showToast` calls, the
  `setProgressBarPercentage` calls and the
  `updateSubscriptionLiveCacheByChannel` calls.
* The tasks handed to `Promise.all` are run one after the other in the order
  in which they settle, which is a parameter (`settle`).  The interleaving of
  their awaits is not represented: a task only appends to the records and to
  `errorChannels`, and reads preferences that no task writes, while the code
  after its last await (counter, progress, cache write) runs without
  interruption.
* JavaScript numbers are rationals rounded by `Env.roundDouble` after each
  arithmetic operation.
* The four strategy methods call each other with `failedAttempts + 1` and stop
  at `failedAttempts >= 3`; they are defined by recursion on
  `3 - failedAttempts` and are total.
-/

namespace SubscriptionsLive

/-! ## Data model -/

/-- Text of a thrown error or rejected promise. -/
abbrev Err := String

/-- Subscription entry of the active profile; only `channel.id` is read. -/
structure Channel where
  id : String
deriving DecidableEq, Repr

/-- Video record; `type` is the field inspected by `getChannelLiveInvidious`. -/
structure Video where
  type : String
  videoId : String
deriving DecidableEq, Repr

/-- Entry of the live cache; `videos = none` is a JavaScript `null`. -/
structure CacheEntry where
  channelId : String
  videos : Option (List Video)
deriving DecidableEq, Repr

/-- The four fetch functions of the component. -/
inductive Strategy
  | local
  | localRSS
  | invidious
  | invidiousRSS
deriving DecidableEq, Repr

/-- Messages passed to `showToast`. -/
inductive Toast
  | localApiError (err : Err)
  | invidiousApiError (err : Err)
  | fallingBackToInvidious
  | fallingBackToLocal
  | forcingRSS
deriving DecidableEq, Repr

/-- Result of a `fetch` call that did not throw. -/
structure Response where
  status : Nat
  text : Except Err String

/-- What the external calls made by one invocation of a strategy function
return (`.ok`) or throw (`.error`). -/
structure AttemptWorld where
  /-- Call `getLocalChannelLiveStreams(channel.id)`; `.ok none` is `null`. -/
  getLocalChannelLiveStreams : Except Err (Option (List Video))
  /-- Call `addPublishedDatesLocal(entries)`: the entries after the update. -/
  addPublishedDatesLocal : List Video → Except Err (List Video)
  /-- Call `fetch(feedUrl)` on the YouTube playlist feed. -/
  fetchPlaylistFeed : Except Err Response
  /-- Call `fetch(.., { method: HEAD })` on the YouTube channel feed. -/
  fetchChannelFeedHead : Except Err Response
  /-- Call `invidiousAPICall(subscriptionsPayload)`: `result.videos`. -/
  invidiousAPICall : Except Err (List Video)
  /-- Call `addPublishedDatesInvidious(videos)`: the videos after the update. -/
  addPublishedDatesInvidious : List Video → Except Err (List Video)
  /-- Call `fetch(feedUrl)` on the playlist feed of the Invidious instance. -/
  fetchInvidiousFeed : Except Err Response
  /-- Call `parseYouTubeRSSFeed(text, channel.id)`. -/
  parseYouTubeRSSFeed : String → String → Except Err (List Video)

/-- Build constant and helper that are fixed during a run. -/
structure Env where
  /-- Value of `process.env.IS_ELECTRON`. -/
  isElectron : Bool
  /-- Helper `updateVideoListAfterProcessing` of `helpers/subscriptions`. -/
  updateVideoListAfterProcessing : List Video → List Video
  /-- Rounding of the exact result of `/` or `*` to a JavaScript number. -/
  roundDouble : ℚ → ℚ

/-- The component instance: `data`, the store state behind its computed
properties, and the record of its outward calls. -/
structure Component where
  isLoading : Bool
  videoList : List Video
  errorChannels : List Channel
  attemptedFetch : Bool
  /-- Getter `getBackendPreference`. -/
  backendPreference : String
  /-- Getter `getBackendFallback`. -/
  backendFallback : Bool
  /-- Getter `getUseRssFeeds`. -/
  useRssFeeds : Bool
  /-- Getter `getFetchSubscriptionsAutomatically`. -/
  fetchSubscriptionsAutomatically : Bool
  /-- Value of `activeProfile.subscriptions`. -/
  activeSubscriptionList : List Channel
  /-- State behind `getLiveCacheByChannel`, newest entry first. -/
  liveCache : List CacheEntry
  showProgressBar : Bool
  /-- Strategy functions entered: channel, function, `failedAttempts`. -/
  attempts : List (Channel × Strategy × Nat)
  /-- Calls of `showToast`. -/
  toasts : List Toast
  /-- Calls of `setProgressBarPercentage`. -/
  progressLog : List ℚ
  /-- Calls of `updateSubscriptionLiveCacheByChannel`. -/
  cacheWrites : List (String × List Video)

namespace Component

/-- Record that a strategy function was entered. -/
def enter (self : Component) (channel : Channel) (s : Strategy) (n : Nat) : Component :=
  { self with attempts := self.attempts ++ [(channel, s, n)] }

/-- Call `showToast(..)`. -/
def showToast (self : Component) (t : Toast) : Component :=
  { self with toasts := self.toasts ++ [t] }

/-- Statement `this.errorChannels.push(channel)`. -/
def pushErrorChannel (self : Component) (channel : Channel) : Component :=
  { self with errorChannels := self.errorChannels ++ [channel] }

/-- Modelled from the spec: the store getter `getLiveCacheByChannel`, which is
not in this file; `get(channelId) -> CacheEntry|null`. -/
def getLiveCacheByChannel (self : Component) (channelId : String) : Option CacheEntry :=
  self.liveCache.find? (fun entry => entry.channelId = channelId)

/-- Modelled from the spec: the store action
`updateSubscriptionLiveCacheByChannel`, which is not in this file;
`set(channelId, videos)` replaces the entry of that channel. -/
def updateSubscriptionLiveCacheByChannel (self : Component) (channelId : String)
    (videos : List Video) : Component :=
  { self with
    liveCache := { channelId := channelId, videos := some videos } ::
      self.liveCache.filter (fun entry => entry.channelId ≠ channelId)
    cacheWrites := self.cacheWrites ++ [(channelId, videos)] }

/-- Store action `updateShowProgressBar`. -/
def updateShowProgressBar (self : Component) (value : Bool) : Component :=
  { self with showProgressBar := value }

/-- Store mutation `setProgressBarPercentage`. -/
def setProgressBarPercentage (self : Component) (value : ℚ) : Component :=
  { self with progressLog := self.progressLog ++ [value] }

end Component

/-! ## Cache check -/

/-- Computed property `cacheEntriesForAllActiveProfileChannels`. -/
def cacheEntriesForAllActiveProfileChannels (self : Component) : List CacheEntry :=
  self.activeSubscriptionList.filterMap (fun channel => self.getLiveCacheByChannel channel.id)

/-- Computed property `videoCacheForAllActiveProfileChannelsPresent`. -/
def videoCacheForAllActiveProfileChannelsPresent (self : Component) : Bool :=
  if (cacheEntriesForAllActiveProfileChannels self).length = 0 then false
  else if (cacheEntriesForAllActiveProfileChannels self).length
      < self.activeSubscriptionList.length then false
  else (cacheEntriesForAllActiveProfileChannels self).all
    (fun cacheEntry => cacheEntry.videos.isSome)

/-- The `forEach` loop of `loadVideosFromCacheForAllActiveProfileChannels`;
reading `.videos` of a missing entry or spreading `null` is a `TypeError`. -/
def loadVideosFromCache_forEach (self : Component) :
    List Channel → List Video → Except Err (List Video)
  | [], videoList => .ok videoList
  | channel :: rest, videoList =>
    match self.getLiveCacheByChannel channel.id with
    | none => .error "TypeError"
    | some channelCacheEntry =>
      match channelCacheEntry.videos with
      | none => .error "TypeError"
      | some videos => loadVideosFromCache_forEach self rest (videoList ++ videos)

/-- Method `loadVideosFromCacheForAllActiveProfileChannels`. -/
def loadVideosFromCacheForAllActiveProfileChannels (env : Env) (self : Component) :
    Except Err Component :=
  match loadVideosFromCache_forEach self self.activeSubscriptionList [] with
  | .error err => .error err
  | .ok videoList =>
    .ok { self with
      videoList := env.updateVideoListAfterProcessing videoList
      isLoading := false }

/-! ## Fetch strategies -/

/-- The `try` block of `getChannelLiveLocal`. -/
def getChannelLiveLocal_try (w : AttemptWorld) (channel : Channel) (self : Component) :
    Except Err (List Video × Component) :=
  match w.getLocalChannelLiveStreams with
  | .error err => .error err
  | .ok none => .ok ([], self.pushErrorChannel channel)
  | .ok (some entries) =>
    match w.addPublishedDatesLocal entries with
    | .error err => .error err
    | .ok entries => .ok (entries, self)

/-- The `try` block of `getChannelLiveLocalRSS`. -/
def getChannelLiveLocalRSS_try (w : AttemptWorld) (channel : Channel) (self : Component) :
    Except Err (List Video × Component) :=
  match w.fetchPlaylistFeed with
  | .error error => .error error
  | .ok response =>
    if response.status = 404 then
      match w.fetchChannelFeedHead with
      | .error error => .error error
      | .ok response2 =>
        if response2.status = 404 then
          .ok ([], self.pushErrorChannel channel)
        else
          .ok ([], self)
    else
      match response.text with
      | .error error => .error error
      | .ok text =>
        match w.parseYouTubeRSSFeed text channel.id with
        | .error error => .error error
        | .ok videos => .ok (videos, self)

/-- The `then` handler of `getChannelLiveInvidious`, whose exceptions reach
the `catch` handler chained after it. -/
def getChannelLiveInvidious_try (w : AttemptWorld) (self : Component) :
    Except Err (List Video × Component) :=
  match w.invidiousAPICall with
  | .error err => .error err
  | .ok resultVideos =>
    match w.addPublishedDatesInvidious (resultVideos.filter (fun e => e.type = "video")) with
    | .error err => .error err
    | .ok videos => .ok (videos, self)

/-- The `try` block of `getChannelLiveInvidiousRSS`. -/
def getChannelLiveInvidiousRSS_try (w : AttemptWorld) (channel : Channel) (self : Component) :
    Except Err (List Video × Component) :=
  match w.fetchInvidiousFeed with
  | .error error => .error error
  | .ok response =>
    if response.status = 500 ∨ response.status = 404 then
      .ok ([], self)
    else
      match response.text with
      | .error error => .error error
      | .ok text =>
        match w.parseYouTubeRSSFeed text channel.id with
        | .error error => .error error
        | .ok videos => .ok (videos, self)

mutual

/-- Method `getChannelLiveLocal(channel, failedAttempts = 0)`. -/
def getChannelLiveLocal (env : Env) (w : Nat → AttemptWorld) (channel : Channel)
    (failedAttempts : Nat) (self : Component) : List Video × Component :=
  let self := self.enter channel .local failedAttempts
  match getChannelLiveLocal_try (w failedAttempts) channel self with
  | .ok r => r
  | .error err =>
    let self := self.showToast (.localApiError err)
    match h : failedAttempts with
    | 0 => getChannelLiveLocalRSS env w channel (failedAttempts + 1) self
    | 1 =>
      if self.backendFallback then
        getChannelLiveInvidious env w channel (failedAttempts + 1)
          (self.showToast .fallingBackToInvidious)
      else
        ([], self)
    | 2 => getChannelLiveLocalRSS env w channel (failedAttempts + 1) self
    | _ => ([], self)
termination_by 3 - failedAttempts
decreasing_by all_goals omega

/-- Method `getChannelLiveLocalRSS(channel, failedAttempts = 0)`. -/
def getChannelLiveLocalRSS (env : Env) (w : Nat → AttemptWorld) (channel : Channel)
    (failedAttempts : Nat) (self : Component) : List Video × Component :=
  let self := self.enter channel .localRSS failedAttempts
  match getChannelLiveLocalRSS_try (w failedAttempts) channel self with
  | .ok r => r
  | .error error =>
    let self := self.showToast (.localApiError error)
    match h : failedAttempts with
    | 0 => getChannelLiveLocal env w channel (failedAttempts + 1) self
    | 1 =>
      if self.backendFallback then
        getChannelLiveInvidiousRSS env w channel (failedAttempts + 1)
          (self.showToast .fallingBackToInvidious)
      else
        ([], self)
    | 2 => getChannelLiveLocal env w channel (failedAttempts + 1) self
    | _ => ([], self)
termination_by 3 - failedAttempts
decreasing_by all_goals omega

/-- Method `getChannelLiveInvidious(channel, failedAttempts = 0)`. -/
def getChannelLiveInvidious (env : Env) (w : Nat → AttemptWorld) (channel : Channel)
    (failedAttempts : Nat) (self : Component) : List Video × Component :=
  let self := self.enter channel .invidious failedAttempts
  match getChannelLiveInvidious_try (w failedAttempts) self with
  | .ok r => r
  | .error err =>
    let self := self.showToast (.invidiousApiError err)
    match h : failedAttempts with
    | 0 => getChannelLiveInvidiousRSS env w channel (failedAttempts + 1) self
    | 1 =>
      if env.isElectron && self.backendFallback then
        getChannelLiveLocal env w channel (failedAttempts + 1)
          (self.showToast .fallingBackToLocal)
      else
        ([], self)
    | 2 => getChannelLiveInvidiousRSS env w channel (failedAttempts + 1) self
    | _ => ([], self)
termination_by 3 - failedAttempts
decreasing_by all_goals omega

/-- Method `getChannelLiveInvidiousRSS(channel, failedAttempts = 0)`. -/
def getChannelLiveInvidiousRSS (env : Env) (w : Nat → AttemptWorld) (channel : Channel)
    (failedAttempts : Nat) (self : Component) : List Video × Component :=
  let self := self.enter channel .invidiousRSS failedAttempts
  match getChannelLiveInvidiousRSS_try (w failedAttempts) channel self with
  | .ok r => r
  | .error error =>
    let self := self.showToast (.invidiousApiError error)
    match h : failedAttempts with
    | 0 => getChannelLiveInvidious env w channel (failedAttempts + 1) self
    | 1 =>
      if env.isElectron && self.backendFallback then
        getChannelLiveLocalRSS env w channel (failedAttempts + 1)
          (self.showToast .fallingBackToLocal)
      else
        ([], self)
    | 2 => getChannelLiveInvidious env w channel (failedAttempts + 1) self
    | _ => ([], self)
termination_by 3 - failedAttempts
decreasing_by all_goals omega

end

/-- Dispatch on the strategy: the method of the component that implements it. -/
def getChannelLive (s : Strategy) (env : Env) (w : Nat → AttemptWorld) (channel : Channel)
    (failedAttempts : Nat) (self : Component) : List Video × Component :=
  match s with
  | .local => getChannelLiveLocal env w channel failedAttempts self
  | .localRSS => getChannelLiveLocalRSS env w channel failedAttempts self
  | .invidious => getChannelLiveInvidious env w channel failedAttempts self
  | .invidiousRSS => getChannelLiveInvidiousRSS env w channel failedAttempts self

/-- The try block of the method implementing a strategy. -/
def tryBlock (s : Strategy) (w : AttemptWorld) (channel : Channel) (self : Component) :
    Except Err (List Video × Component) :=
  match s with
  | .local => getChannelLiveLocal_try w channel self
  | .localRSS => getChannelLiveLocalRSS_try w channel self
  | .invidious => getChannelLiveInvidious_try w self
  | .invidiousRSS => getChannelLiveInvidiousRSS_try w channel self

/-- The error toast fired first in the catch block of a strategy. -/
def errorToast (s : Strategy) (err : Err) : Toast :=
  match s with
  | .local => .localApiError err
  | .localRSS => .localApiError err
  | .invidious => .invidiousApiError err
  | .invidiousRSS => .invidiousApiError err

/-- The four `switch (failedAttempts)` statements read as one table: the
method called next and the notice fired before the call, or `none` where the
catch block returns the empty list. -/
def nextOnFailure (isElectron backendFallback : Bool) :
    Strategy → Nat → Option (Strategy × Option Toast)
  | .local, 0 => some (.localRSS, none)
  | .local, 1 =>
    if backendFallback then some (.invidious, some .fallingBackToInvidious) else none
  | .local, 2 => some (.localRSS, none)
  | .localRSS, 0 => some (.local, none)
  | .localRSS, 1 =>
    if backendFallback then some (.invidiousRSS, some .fallingBackToInvidious) else none
  | .localRSS, 2 => some (.local, none)
  | .invidious, 0 => some (.invidiousRSS, none)
  | .invidious, 1 =>
    if isElectron && backendFallback then some (.local, some .fallingBackToLocal) else none
  | .invidious, 2 => some (.invidiousRSS, none)
  | .invidiousRSS, 0 => some (.invidious, none)
  | .invidiousRSS, 1 =>
    if isElectron && backendFallback then some (.localRSS, some .fallingBackToLocal) else none
  | .invidiousRSS, 2 => some (.invidious, none)
  | _, _ => none

/-- Fire the notice of a table entry, if it has one. -/
def Component.notice (self : Component) : Option Toast → Component
  | none => self
  | some t => self.showToast t

/-! ## Refresh cycle -/

/-- Variables of `loadVideosForSubscriptionsFromRemote` shared by the channel
tasks: the component, `channelCount`, and the value each settled task
returned, by index in the subscription list. -/
structure Cycle where
  self : Component
  channelCount : Nat
  settled : List (Nat × List Video)

/-- The strategy a channel task starts with (the nested `if` of the task). -/
def startStrategy (env : Env) (self : Component) (useRss : Bool) : Strategy :=
  if !env.isElectron || self.backendPreference = "invidious" then
    if useRss then .invidiousRSS else .invidious
  else
    if useRss then .localRSS else .local

/-- The async function mapped over `channelsToLoadFromRemote`, run for the
channel at `index` from its start to its settlement. -/
def channelTask (env : Env) (w : Nat → AttemptWorld) (useRss : Bool)
    (channelsToLoadFromRemote : List Channel) (index : Nat) (channel : Channel)
    (st : Cycle) : Cycle :=
  let r :=
    if !env.isElectron || st.self.backendPreference = "invidious" then
      if useRss then getChannelLiveInvidiousRSS env w channel 0 st.self
      else getChannelLiveInvidious env w channel 0 st.self
    else
      if useRss then getChannelLiveLocalRSS env w channel 0 st.self
      else getChannelLiveLocal env w channel 0 st.self
  let videos := r.1
  let channelCount := st.channelCount + 1
  let percentageComplete :=
    env.roundDouble
      (env.roundDouble ((channelCount : ℚ) / (channelsToLoadFromRemote.length : ℚ)) * 100)
  let self := r.2.setProgressBarPercentage percentageComplete
  let self := self.updateSubscriptionLiveCacheByChannel channel.id videos
  { self := self, channelCount := channelCount, settled := st.settled ++ [(index, videos)] }

/-- The tasks of `Promise.all`, run one after the other in the order `settle`
in which they settle (indices into the subscription list). -/
def settleTasks (env : Env) (W : Nat → Nat → AttemptWorld) (useRss : Bool)
    (channelsToLoadFromRemote : List Channel) : List Nat → Cycle → Cycle
  | [], st => st
  | index :: rest, st =>
    match channelsToLoadFromRemote[index]? with
    | some channel =>
      settleTasks env W useRss channelsToLoadFromRemote rest
        (channelTask env (W index) useRss channelsToLoadFromRemote index channel st)
    | none => settleTasks env W useRss channelsToLoadFromRemote rest st

/-- Method `loadVideosForSubscriptionsFromRemote`.  `W index` is the world of
the task of the channel at `index`; `settle` is the order in which the tasks
settle. -/
def loadVideosForSubscriptionsFromRemote (env : Env) (W : Nat → Nat → AttemptWorld)
    (settle : List Nat) (self : Component) : Component :=
  if self.activeSubscriptionList.length = 0 then
    { self with isLoading := false, videoList := [] }
  else
    let channelsToLoadFromRemote := self.activeSubscriptionList
    let self := { self with isLoading := true }
    let useRss := self.useRssFeeds
    let forced := decide (channelsToLoadFromRemote.length ≥ 125) && !useRss
    let self := if forced then self.showToast .forcingRSS else self
    let useRss := if forced then true else useRss
    let self := self.updateShowProgressBar true
    let self := self.setProgressBarPercentage 0
    let self := { self with attemptedFetch := true }
    let self := { self with errorChannels := [] }
    let st := settleTasks env W useRss channelsToLoadFromRemote settle
      { self := self, channelCount := 0, settled := [] }
    let videoListFromRemote :=
      (List.range channelsToLoadFromRemote.length).flatMap
        (fun index => (st.settled.lookup index).getD [])
    let self := { st.self with
      videoList := env.updateVideoListAfterProcessing videoListFromRemote }
    let self := { self with isLoading := false }
    self.updateShowProgressBar false

/-- Method `maybeLoadVideosForSubscriptionsFromRemote`. -/
def maybeLoadVideosForSubscriptionsFromRemote (env : Env) (W : Nat → Nat → AttemptWorld)
    (settle : List Nat) (self : Component) : Component :=
  if self.fetchSubscriptionsAutomatically then
    loadVideosForSubscriptionsFromRemote env W settle self
  else
    { self with videoList := [], attemptedFetch := false, isLoading := false }

/-- Method `loadVideosFromCacheSometimes`. -/
def loadVideosFromCacheSometimes (env : Env) (W : Nat → Nat → AttemptWorld)
    (settle : List Nat) (self : Component) : Except Err Component :=
  if videoCacheForAllActiveProfileChannelsPresent self then
    loadVideosFromCacheForAllActiveProfileChannels env self
  else
    .ok (maybeLoadVideosForSubscriptionsFromRemote env W settle self)

/-! ## Vocabulary of the statements -/

/-- The strategies a task goes through when every attempt fails and no gate
stops it, read off the four switch statements. -/
def escalation : Strategy → List Strategy
  | .local => [.local, .localRSS, .invidiousRSS, .invidious]
  | .localRSS => [.localRSS, .local, .invidious, .invidiousRSS]
  | .invidious => [.invidious, .invidiousRSS, .localRSS, .local]
  | .invidiousRSS => [.invidiousRSS, .invidious, .local, .localRSS]

/-- Entries of the attempt record for the strategies `l`, numbered from `n`. -/
def chainFrom (channel : Channel) : List Strategy → Nat → List (Channel × Strategy × Nat)
  | [], _ => []
  | s :: rest, n => (channel, s, n) :: chainFrom channel rest (n + 1)

/-- Attempts recorded between two states of the component. -/
def newAttempts (before after : Component) : List (Channel × Strategy × Nat) :=
  after.attempts.drop before.attempts.length

/-- Toasts fired between two states of the component. -/
def newToasts (before after : Component) : List Toast :=
  after.toasts.drop before.toasts.length

/-- The try block of strategy `s` throws in the world `w`, whatever the state
of the component. -/
def Throws (s : Strategy) (w : AttemptWorld) (channel : Channel) : Prop :=
  ∀ self, ∃ err, tryBlock s w channel self = .error err

/-- Every attempt of a channel task fails. -/
def AllFail (w : Nat → AttemptWorld) (channel : Channel) : Prop :=
  ∀ n s, Throws s (w n) channel

/-- Whether a strategy belongs to the local backend family. -/
def Strategy.isLocal : Strategy → Bool
  | .local => true
  | .localRSS => true
  | .invidious => false
  | .invidiousRSS => false

/-- Whether a strategy reads an RSS feed. -/
def Strategy.isRSS : Strategy → Bool
  | .local => false
  | .localRSS => true
  | .invidious => false
  | .invidiousRSS => true

/-- The other strategy of the same backend family. -/
def Strategy.sibling : Strategy → Strategy
  | .local => .localRSS
  | .localRSS => .local
  | .invidious => .invidiousRSS
  | .invidiousRSS => .invidious

/-- A world in which every external call throws. -/
def failingWorld : AttemptWorld where
  getLocalChannelLiveStreams := .error "offline"
  addPublishedDatesLocal := fun entries => .ok entries
  fetchPlaylistFeed := .error "offline"
  fetchChannelFeedHead := .error "offline"
  invidiousAPICall := .error "offline"
  addPublishedDatesInvidious := fun videos => .ok videos
  fetchInvidiousFeed := .error "offline"
  parseYouTubeRSSFeed := fun _ _ => .error "offline"

/-- A component with nothing loaded, for the given preferences and
subscription list. -/
def freshComponent (backendPreference : String) (backendFallback useRssFeeds fetchAuto : Bool)
    (subscriptions : List Channel) : Component where
  isLoading := false
  videoList := []
  errorChannels := []
  attemptedFetch := false
  backendPreference := backendPreference
  backendFallback := backendFallback
  useRssFeeds := useRssFeeds
  fetchSubscriptionsAutomatically := fetchAuto
  activeSubscriptionList := subscriptions
  liveCache := []
  showProgressBar := false
  attempts := []
  toasts := []
  progressLog := []
  cacheWrites := []

/-- The desktop application, with exact arithmetic and no post-processing. -/
def desktopEnv : Env := ⟨true, id, id⟩

/-- The web build, with exact arithmetic and no post-processing. -/
def webEnv : Env := ⟨false, id, id⟩

/-- One of the two existence checks finds the channel gone: the local API
returns `null`, or the local RSS strategy gets status 404 for the playlist
feed and then status 404 for the HEAD request on the channel feed. -/
def confirmedAbsent (s : Strategy) (w : AttemptWorld) : Bool :=
  match s with
  | .local =>
    match w.getLocalChannelLiveStreams with
    | .ok none => true
    | _ => false
  | .localRSS =>
    match w.fetchPlaylistFeed with
    | .ok response =>
      if response.status = 404 then
        match w.fetchChannelFeedHead with
        | .ok response2 => response2.status = 404
        | .error _ => false
      else false
    | .error _ => false
  | .invidious => false
  | .invidiousRSS => false

/-- A world in which the local API reports the channel as absent. -/
def absentWorld : AttemptWorld :=
  { failingWorld with getLocalChannelLiveStreams := .ok none }

/-- A step from a remote strategy to a local one needs the desktop application
and the fallback preference. -/
def GatedStep (isElectron backendFallback : Bool) (a b : Channel × Strategy × Nat) : Prop :=
  a.2.1.isLocal = false → b.2.1.isLocal = true →
    isElectron = true ∧ backendFallback = true

/-- The value `(channelCount / total) * 100` as JavaScript computes it. -/
def percentage (env : Env) (channelCount total : Nat) : ℚ :=
  env.roundDouble (env.roundDouble ((channelCount : ℚ) / (total : ℚ)) * 100)

/-- Percentages published between two states of the component. -/
def newProgress (before after : Component) : List ℚ :=
  after.progressLog.drop before.progressLog.length

/-- Cache writes made between two states of the component. -/
def newCacheWrites (before after : Component) : List (String × List Video) :=
  after.cacheWrites.drop before.cacheWrites.length

/-- Whether the cycle overrides the feed mode (the test before the toast). -/
def forcesRss (self : Component) : Bool :=
  decide (self.activeSubscriptionList.length ≥ 125) && !self.useRssFeeds

/-- The videos returned by the task of `channel` in the world `w`, the cycle
having been started on `self` with feed mode `useRss`. -/
def taskVideos (env : Env) (w : Nat → AttemptWorld) (useRss : Bool) (self : Component)
    (channel : Channel) : List Video :=
  (getChannelLive (startStrategy env self useRss) env w channel 0 self).1

/-- The component at the moment the channel tasks are launched. -/
def cycleStart (self : Component) : Component :=
  { ((((if forcesRss self then
          ({ self with isLoading := true } : Component).showToast .forcingRSS
        else { self with isLoading := true }).updateShowProgressBar true)
      ).setProgressBarPercentage 0) with
    attemptedFetch := true
    errorChannels := [] }

/-- The state of the cycle when all launched tasks have settled. -/
def cycleEnd (env : Env) (W : Nat → Nat → AttemptWorld) (settle : List Nat)
    (self : Component) : Cycle :=
  settleTasks env W (forcesRss self || self.useRssFeeds) self.activeSubscriptionList settle
    { self := cycleStart self, channelCount := 0, settled := [] }

/-- The videos of the cache entry of a channel, empty where there is none. -/
def cachedVideos (self : Component) (channel : Channel) : List Video :=
  ((self.getLiveCacheByChannel channel.id).bind (fun entry => entry.videos)).getD []

/-- A component whose cache holds an empty list for its one subscription. -/
def cachedComponent : Component :=
  { freshComponent "local" true false true [⟨"UCabc"⟩] with
    liveCache := [{ channelId := "UCabc", videos := some [] }] }

/-- A world in which the local API returns one live video. -/
def liveWorld : AttemptWorld :=
  { failingWorld with getLocalChannelLiveStreams := .ok (some [⟨"video", "v1"⟩]) }

/-! ## Unfolding the strategy methods -/

@[simp]
theorem enter_backendFallback (self : Component) (c : Channel) (s : Strategy) (n : Nat) :
    (self.enter c s n).backendFallback = self.backendFallback := rfl

@[simp]
theorem showToast_backendFallback (self : Component) (t : Toast) :
    (self.showToast t).backendFallback = self.backendFallback := rfl

@[simp]
theorem notice_backendFallback (self : Component) (t : Option Toast) :
    (self.notice t).backendFallback = self.backendFallback := by
  cases t <;> rfl

theorem getChannelLive_ok (s : Strategy) (env : Env) (w : Nat → AttemptWorld)
    (channel : Channel) (n : Nat) (self : Component) (r : List Video × Component)
    (h : tryBlock s (w n) channel (self.enter channel s n) = .ok r) :
    getChannelLive s env w channel n self = r := by
  cases s <;> simp only [getChannelLive, tryBlock] at h ⊢
  · rw [getChannelLiveLocal]; simp [h]
  · rw [getChannelLiveLocalRSS]; simp [h]
  · rw [getChannelLiveInvidious]; simp [h]
  · rw [getChannelLiveInvidiousRSS]; simp [h]

theorem getChannelLive_error (s : Strategy) (env : Env) (w : Nat → AttemptWorld)
    (channel : Channel) (n : Nat) (self : Component) (err : Err)
    (h : tryBlock s (w n) channel (self.enter channel s n) = .error err) :
    getChannelLive s env w channel n self =
      match nextOnFailure env.isElectron self.backendFallback s n with
      | none => ([], (self.enter channel s n).showToast (errorToast s err))
      | some (s', t) =>
        getChannelLive s' env w channel (n + 1)
          (((self.enter channel s n).showToast (errorToast s err)).notice t) := by
  cases s <;> simp only [getChannelLive, tryBlock] at h ⊢
  · rw [getChannelLiveLocal]
    match n with
    | 0 => simp [h, nextOnFailure, errorToast, Component.notice, getChannelLive]
    | 1 =>
      cases hb : self.backendFallback <;>
        simp [h, hb, nextOnFailure, errorToast, Component.notice, getChannelLive]
    | 2 => simp [h, nextOnFailure, errorToast, Component.notice, getChannelLive]
    | k + 3 => simp [h, nextOnFailure, errorToast, Component.notice, getChannelLive]
  · rw [getChannelLiveLocalRSS]
    match n with
    | 0 => simp [h, nextOnFailure, errorToast, Component.notice, getChannelLive]
    | 1 =>
      cases hb : self.backendFallback <;>
        simp [h, hb, nextOnFailure, errorToast, Component.notice, getChannelLive]
    | 2 => simp [h, nextOnFailure, errorToast, Component.notice, getChannelLive]
    | k + 3 => simp [h, nextOnFailure, errorToast, Component.notice, getChannelLive]
  · rw [getChannelLiveInvidious]
    match n with
    | 0 => simp [h, nextOnFailure, errorToast, Component.notice, getChannelLive]
    | 1 =>
      cases hb : self.backendFallback <;> cases he : env.isElectron <;>
        simp [h, hb, he, nextOnFailure, errorToast, Component.notice, getChannelLive]
    | 2 => simp [h, nextOnFailure, errorToast, Component.notice, getChannelLive]
    | k + 3 => simp [h, nextOnFailure, errorToast, Component.notice, getChannelLive]
  · rw [getChannelLiveInvidiousRSS]
    match n with
    | 0 => simp [h, nextOnFailure, errorToast, Component.notice, getChannelLive]
    | 1 =>
      cases hb : self.backendFallback <;> cases he : env.isElectron <;>
        simp [h, hb, he, nextOnFailure, errorToast, Component.notice, getChannelLive]
    | 2 => simp [h, nextOnFailure, errorToast, Component.notice, getChannelLive]
    | k + 3 => simp [h, nextOnFailure, errorToast, Component.notice, getChannelLive]

theorem nextOnFailure_some_lt (e f : Bool) (s : Strategy) (n : Nat) (x : Strategy × Option Toast)
    (h : nextOnFailure e f s n = some x) : n < 3 := by
  by_contra hn
  obtain ⟨k, rfl⟩ : ∃ k, n = k + 3 := ⟨n - 3, by omega⟩
  cases s <;> simp [nextOnFailure] at h

/-- Induction along a run of a channel task: a property that holds where the
try block returns, where the catch block gives up, and that is carried back
over each escalation step, holds of every run. -/
theorem getChannelLive_induct (env : Env) (w : Nat → AttemptWorld) (channel : Channel)
    (P : Strategy → Nat → Component → List Video × Component → Prop)
    (ok : ∀ s n self r, tryBlock s (w n) channel (self.enter channel s n) = .ok r →
      P s n self r)
    (stop : ∀ s n self err, tryBlock s (w n) channel (self.enter channel s n) = .error err →
      nextOnFailure env.isElectron self.backendFallback s n = none →
      P s n self ([], (self.enter channel s n).showToast (errorToast s err)))
    (next : ∀ s n self err s' t,
      tryBlock s (w n) channel (self.enter channel s n) = .error err →
      nextOnFailure env.isElectron self.backendFallback s n = some (s', t) →
      P s' (n + 1) (((self.enter channel s n).showToast (errorToast s err)).notice t)
        (getChannelLive s' env w channel (n + 1)
          (((self.enter channel s n).showToast (errorToast s err)).notice t)) →
      P s n self
        (getChannelLive s' env w channel (n + 1)
          (((self.enter channel s n).showToast (errorToast s err)).notice t))) :
    ∀ s n self, P s n self (getChannelLive s env w channel n self) := by
  have key : ∀ m n, 3 - n ≤ m → ∀ s self,
      P s n self (getChannelLive s env w channel n self) := by
    intro m
    induction m with
    | zero =>
      intro n hn s self
      cases htry : tryBlock s (w n) channel (self.enter channel s n) with
      | ok r => rw [getChannelLive_ok _ _ _ _ _ _ _ htry]; exact ok _ _ _ _ htry
      | error err =>
        rw [getChannelLive_error _ _ _ _ _ _ _ htry]
        cases hnext : nextOnFailure env.isElectron self.backendFallback s n with
        | none => exact stop _ _ _ _ htry hnext
        | some x =>
          have := nextOnFailure_some_lt _ _ _ _ _ hnext
          omega
    | succ m ih =>
      intro n hn s self
      cases htry : tryBlock s (w n) channel (self.enter channel s n) with
      | ok r => rw [getChannelLive_ok _ _ _ _ _ _ _ htry]; exact ok _ _ _ _ htry
      | error err =>
        rw [getChannelLive_error _ _ _ _ _ _ _ htry]
        cases hnext : nextOnFailure env.isElectron self.backendFallback s n with
        | none => exact stop _ _ _ _ htry hnext
        | some x =>
          obtain ⟨s', t⟩ := x
          have hlt := nextOnFailure_some_lt _ _ _ _ _ hnext
          exact next _ _ _ _ _ _ htry hnext (ih (n + 1) (by omega) s' _)
  intro s n self
  exact key (3 - n) n (le_refl _) s self

/-! ## Runs of one channel task -/

theorem tryBlock_ok_cases (s : Strategy) (w : AttemptWorld) (channel : Channel)
    (self : Component) (r : List Video × Component) (h : tryBlock s w channel self = .ok r) :
    r.2 = self ∨ (r.2 = self.pushErrorChannel channel ∧ r.1 = []) := by
  cases s <;> simp only [tryBlock, getChannelLiveLocal_try, getChannelLiveLocalRSS_try,
    getChannelLiveInvidious_try, getChannelLiveInvidiousRSS_try] at h
  all_goals (repeat' split at h) <;> simp_all <;> (subst h; simp)

theorem tryBlock_ok_attempts (s : Strategy) (w : AttemptWorld) (channel : Channel)
    (self : Component) (r : List Video × Component) (h : tryBlock s w channel self = .ok r) :
    r.2.attempts = self.attempts := by
  rcases tryBlock_ok_cases s w channel self r h with h | ⟨h, _⟩ <;> (rw [h]; try rfl)

@[simp]
theorem notice_attempts (self : Component) (t : Option Toast) :
    (self.notice t).attempts = self.attempts := by
  cases t <;> rfl

theorem escalation_next (e f : Bool) (s0 s s' : Strategy) (n : Nat) (t : Option Toast)
    (rest : List Strategy) (hd : (escalation s0).drop n = s :: rest)
    (hn : nextOnFailure e f s n = some (s', t)) :
    ∃ rest', rest = s' :: rest' := by
  have hlt := nextOnFailure_some_lt _ _ _ _ _ hn
  match n, hlt with
  | 0, _ => cases s0 <;> simp [escalation] at hd <;> obtain ⟨rfl, rfl⟩ := hd <;>
      simp [nextOnFailure] at hn <;> simp [hn.1]
  | 1, _ => cases s0 <;> simp [escalation] at hd <;> obtain ⟨rfl, rfl⟩ := hd <;>
      cases e <;> cases f <;> simp [nextOnFailure] at hn <;> simp [hn.1]
  | 2, _ => cases s0 <;> simp [escalation] at hd <;> obtain ⟨rfl, rfl⟩ := hd <;>
      simp [nextOnFailure] at hn <;> simp [hn.1]

/-- The attempts of a run entered at position `n` of an escalation chain are
an initial part of the rest of that chain. -/
theorem attempts_chain (env : Env) (w : Nat → AttemptWorld) (channel : Channel)
    (s0 : Strategy) (s : Strategy) (n : Nat) (self : Component) :
    ∀ rest, (escalation s0).drop n = s :: rest →
      ∃ k, k ≤ rest.length ∧
        (getChannelLive s env w channel n self).2.attempts
          = self.attempts ++ chainFrom channel (s :: rest.take k) n := by
  refine getChannelLive_induct env w channel
    (fun s n self r => ∀ rest, (escalation s0).drop n = s :: rest →
      ∃ k, k ≤ rest.length ∧
        r.2.attempts = self.attempts ++ chainFrom channel (s :: rest.take k) n)
    ?_ ?_ ?_ s n self
  · intro s n self r htry rest _
    refine ⟨0, Nat.zero_le _, ?_⟩
    rw [tryBlock_ok_attempts _ _ _ _ _ htry]
    simp [Component.enter, chainFrom]
  · intro s n self err _ _ rest _
    refine ⟨0, Nat.zero_le _, ?_⟩
    simp [Component.enter, Component.showToast, chainFrom]
  · intro s n self err s' t _ hnext ih rest hd
    obtain ⟨rest', rfl⟩ := escalation_next _ _ _ _ _ _ _ _ hd hnext
    have hd' : (escalation s0).drop (n + 1) = s' :: rest' := by
      have := congrArg List.tail hd
      simpa [List.tail_drop] using this
    obtain ⟨k, hk, hatt⟩ := ih rest' hd'
    refine ⟨k + 1, by simpa using hk, ?_⟩
    rw [hatt]
    simp [Component.enter, Component.showToast, chainFrom]

theorem allFail_failingWorld (channel : Channel) : AllFail (fun _ => failingWorld) channel := by
  intro n s self
  cases s <;> exact ⟨"offline", rfl⟩

theorem newAttempts_append (self after : Component) (l : List (Channel × Strategy × Nat))
    (h : after.attempts = self.attempts ++ l) : newAttempts self after = l := by
  simp [newAttempts, h]

/-- C10: from `failedAttempts = 0` a channel task never enters the same strategy twice -/
theorem no_strategy_retried (s : Strategy) (env : Env) (w : Nat → AttemptWorld)
    (channel : Channel) (self : Component) :
    (getChannelLive s env w channel 0 self).2.attempts
        = self.attempts ++ newAttempts self (getChannelLive s env w channel 0 self).2
      ∧ ((newAttempts self (getChannelLive s env w channel 0 self).2).map
          (fun a => a.2.1)).Nodup
      ∧ (newAttempts self (getChannelLive s env w channel 0 self).2).map (fun a => a.2.2)
          = List.range (newAttempts self (getChannelLive s env w channel 0 self).2).length
      ∧ 1 ≤ (newAttempts self (getChannelLive s env w channel 0 self).2).length
      ∧ (newAttempts self (getChannelLive s env w channel 0 self).2).length ≤ 4 := by
  obtain ⟨k, hk, hatt⟩ := attempts_chain env w channel s s 0 self (escalation s).tail
    (by cases s <;> rfl)
  rw [newAttempts_append _ _ _ hatt]
  refine ⟨hatt, ?_⟩
  have hk3 : k ≤ 3 := by cases s <;> simpa [escalation] using hk
  cases s <;> interval_cases k <;> simp [escalation, chainFrom, List.range, List.range.loop]

/-- Unfolding of a failing attempt when every attempt fails. -/
theorem getChannelLive_allFail (env : Env) (w : Nat → AttemptWorld) (channel : Channel)
    (hfail : AllFail w channel) (s : Strategy) (n : Nat) (self : Component) :
    getChannelLive s env w channel n self =
      match nextOnFailure env.isElectron self.backendFallback s n with
      | none => ([], (self.enter channel s n).showToast
          (errorToast s (hfail n s (self.enter channel s n)).choose))
      | some (s', t) =>
        getChannelLive s' env w channel (n + 1)
          (((self.enter channel s n).showToast
            (errorToast s (hfail n s (self.enter channel s n)).choose)).notice t) :=
  getChannelLive_error s env w channel n self _ (hfail n s (self.enter channel s n)).choose_spec

/-- C1 (amended): when every attempt fails the task returns the empty list, after four
attempts if the cross-backend gate is open and after two if it is closed -/
theorem escalation_terminates (s : Strategy) (env : Env) (w : Nat → AttemptWorld)
    (channel : Channel) (self : Component) (hfail : AllFail w channel) :
    (getChannelLive s env w channel 0 self).1 = []
      ∧ (newAttempts self (getChannelLive s env w channel 0 self).2).map (fun a => a.2.2)
          = List.range
              (if self.backendFallback && (s.isLocal || env.isElectron) then 4 else 2) := by
  cases s <;> cases hb : self.backendFallback <;> cases he : env.isElectron <;>
    simp [getChannelLive_allFail env w channel hfail, nextOnFailure, hb, he, newAttempts,
      Component.enter, Component.showToast, Component.notice, Strategy.isLocal,
      List.range, List.range.loop]

/-- C1 (counterexample): with the fallback preference off, a task whose every
attempt fails stops after two attempts, not four -/
theorem escalation_terminates_counterexample :
    AllFail (fun _ => failingWorld) ⟨"UCabc"⟩
      ∧ (newAttempts (freshComponent "local" false false true [⟨"UCabc"⟩])
          (getChannelLive .local desktopEnv (fun _ => failingWorld) ⟨"UCabc"⟩ 0
            (freshComponent "local" false false true [⟨"UCabc"⟩])).2).map (fun a => a.2.2)
        = [0, 1] := by
  refine ⟨allFail_failingWorld _, ?_⟩
  simp [getChannelLive_allFail _ _ _ (allFail_failingWorld ⟨"UCabc"⟩), nextOnFailure,
    newAttempts, Component.enter, Component.showToast, Component.notice, freshComponent]

/-- C1 (witness): the desktop application with fallback on, every call failing -/
theorem escalation_terminates_witness :
    AllFail (fun _ => failingWorld) ⟨"UCabc"⟩
      ∧ (getChannelLive .local desktopEnv (fun _ => failingWorld) ⟨"UCabc"⟩ 0
          (freshComponent "local" true false true [⟨"UCabc"⟩])).1 = []
      ∧ (newAttempts (freshComponent "local" true false true [⟨"UCabc"⟩])
          (getChannelLive .local desktopEnv (fun _ => failingWorld) ⟨"UCabc"⟩ 0
            (freshComponent "local" true false true [⟨"UCabc"⟩])).2).map (fun a => a.2.2)
        = [0, 1, 2, 3] :=
  ⟨allFail_failingWorld _,
    (escalation_terminates .local desktopEnv (fun _ => failingWorld) ⟨"UCabc"⟩
      (freshComponent "local" true false true [⟨"UCabc"⟩]) (allFail_failingWorld _)).1,
    by simpa [freshComponent, Strategy.isLocal, List.range, List.range.loop] using
      (escalation_terminates .local desktopEnv (fun _ => failingWorld) ⟨"UCabc"⟩
        (freshComponent "local" true false true [⟨"UCabc"⟩]) (allFail_failingWorld _)).2⟩

/-- C2 (amended): with fallback allowed in the desktop application and every attempt
failing, a task goes through its family and then through the other family
starting from the same feed mode as the second attempt -/
theorem escalation_order (s : Strategy) (env : Env) (w : Nat → AttemptWorld)
    (channel : Channel) (self : Component) (hfail : AllFail w channel)
    (hb : self.backendFallback = true) (he : env.isElectron = true) :
    (getChannelLive s env w channel 0 self).1 = []
      ∧ (getChannelLive s env w channel 0 self).2.attempts = self.attempts ++
          match s with
          | .local => [(channel, .local, 0), (channel, .localRSS, 1),
              (channel, .invidiousRSS, 2), (channel, .invidious, 3)]
          | .localRSS => [(channel, .localRSS, 0), (channel, .local, 1),
              (channel, .invidious, 2), (channel, .invidiousRSS, 3)]
          | .invidious => [(channel, .invidious, 0), (channel, .invidiousRSS, 1),
              (channel, .localRSS, 2), (channel, .local, 3)]
          | .invidiousRSS => [(channel, .invidiousRSS, 0), (channel, .invidious, 1),
              (channel, .local, 2), (channel, .localRSS, 3)] := by
  cases s <;>
    simp [getChannelLive_allFail env w channel hfail, nextOnFailure, hb, he,
      Component.enter, Component.showToast, Component.notice]

/-- C2 (witness): the desktop application with fallback on, every call failing,
starting from the local API -/
theorem escalation_order_witness :
    AllFail (fun _ => failingWorld) ⟨"UCabc"⟩
      ∧ (freshComponent "local" true false true [⟨"UCabc"⟩]).backendFallback = true
      ∧ desktopEnv.isElectron = true
      ∧ (getChannelLive .local desktopEnv (fun _ => failingWorld) ⟨"UCabc"⟩ 0
          (freshComponent "local" true false true [⟨"UCabc"⟩])).2.attempts
        = [(⟨"UCabc"⟩, .local, 0), (⟨"UCabc"⟩, .localRSS, 1),
            (⟨"UCabc"⟩, .invidiousRSS, 2), (⟨"UCabc"⟩, .invidious, 3)] :=
  ⟨allFail_failingWorld _, rfl, rfl,
    (escalation_order .local desktopEnv (fun _ => failingWorld) ⟨"UCabc"⟩
      (freshComponent "local" true false true [⟨"UCabc"⟩]) (allFail_failingWorld _)
      rfl rfl).2⟩

/-- C2 (counterexample): starting from the local API the third and fourth attempts are
the remote RSS feed and the remote API, not the remote API and the local RSS feed -/
theorem escalation_order_counterexample :
    AllFail (fun _ => failingWorld) ⟨"UCabc"⟩
      ∧ (freshComponent "local" true false true [⟨"UCabc"⟩]).backendFallback = true
      ∧ desktopEnv.isElectron = true
      ∧ ((getChannelLive .local desktopEnv (fun _ => failingWorld) ⟨"UCabc"⟩ 0
          (freshComponent "local" true false true [⟨"UCabc"⟩])).2.attempts.map
            (fun a => a.2.1))
        = [.local, .localRSS, .invidiousRSS, .invidious]
      ∧ ((getChannelLive .local desktopEnv (fun _ => failingWorld) ⟨"UCabc"⟩ 0
          (freshComponent "local" true false true [⟨"UCabc"⟩])).2.attempts.map
            (fun a => a.2.1))
        ≠ [.local, .localRSS, .invidious, .localRSS] := by
  refine ⟨allFail_failingWorld _, rfl, rfl, ?_, ?_⟩ <;>
  simp [getChannelLive_allFail _ _ _ (allFail_failingWorld ⟨"UCabc"⟩), nextOnFailure,
    Component.enter, Component.showToast, Component.notice, freshComponent, desktopEnv]

/-- C3: with the fallback preference off, a failure of the first strategy and then of
its sibling ends the task with the empty list after those two attempts, both in
the starting family, and without a falling-back notice -/
theorem fallback_gating (s : Strategy) (env : Env) (w : Nat → AttemptWorld)
    (channel : Channel) (self : Component) (hb : self.backendFallback = false)
    (h0 : Throws s (w 0) channel) (h1 : Throws s.sibling (w 1) channel) :
    (getChannelLive s env w channel 0 self).1 = []
      ∧ newAttempts self (getChannelLive s env w channel 0 self).2
          = [(channel, s, 0), (channel, s.sibling, 1)]
      ∧ (∀ a ∈ newAttempts self (getChannelLive s env w channel 0 self).2,
          a.2.1.isLocal = s.isLocal)
      ∧ Toast.fallingBackToInvidious ∉
          newToasts self (getChannelLive s env w channel 0 self).2
      ∧ Toast.fallingBackToLocal ∉
          newToasts self (getChannelLive s env w channel 0 self).2 := by
  obtain ⟨e0, h0⟩ := h0 (self.enter channel s 0)
  rw [getChannelLive_error _ _ _ _ _ _ _ h0]
  have hn0 : nextOnFailure env.isElectron self.backendFallback s 0 = some (s.sibling, none) := by
    cases s <;> rfl
  simp only [hn0]
  obtain ⟨e1, h1⟩ := h1 ((((self.enter channel s 0).showToast (errorToast s e0)).notice
    none).enter channel s.sibling 1)
  rw [getChannelLive_error _ _ _ _ _ _ _ h1]
  have hn1 : nextOnFailure env.isElectron self.backendFallback s.sibling 1 = none := by
    cases s <;> simp [nextOnFailure, Strategy.sibling, hb]
  simp only [notice_backendFallback, showToast_backendFallback, enter_backendFallback, hn1]
  cases s <;>
    simp [newAttempts, newToasts, Component.enter, Component.showToast, Component.notice,
      Strategy.sibling, Strategy.isLocal, errorToast]

/-- C3 (witness): fallback off, every call failing, starting from the remote API -/
theorem fallback_gating_witness :
    (freshComponent "invidious" false false true [⟨"UCabc"⟩]).backendFallback = false
      ∧ Throws .invidious failingWorld ⟨"UCabc"⟩
      ∧ Throws Strategy.invidious.sibling failingWorld ⟨"UCabc"⟩
      ∧ newAttempts (freshComponent "invidious" false false true [⟨"UCabc"⟩])
          (getChannelLive .invidious desktopEnv (fun _ => failingWorld) ⟨"UCabc"⟩ 0
            (freshComponent "invidious" false false true [⟨"UCabc"⟩])).2
        = [(⟨"UCabc"⟩, .invidious, 0), (⟨"UCabc"⟩, .invidiousRSS, 1)] :=
  ⟨rfl, allFail_failingWorld _ 0 _, allFail_failingWorld _ 1 _,
    (fallback_gating .invidious desktopEnv (fun _ => failingWorld) ⟨"UCabc"⟩
      (freshComponent "invidious" false false true [⟨"UCabc"⟩]) rfl
      (allFail_failingWorld _ 0 _) (allFail_failingWorld _ 1 _)).2.1⟩

theorem tryBlock_ok_errorChannels (s : Strategy) (w : AttemptWorld) (channel : Channel)
    (self : Component) (r : List Video × Component) (h : tryBlock s w channel self = .ok r) :
    if confirmedAbsent s w then
      r.2.errorChannels = self.errorChannels ++ [channel] ∧ r.1 = []
    else r.2.errorChannels = self.errorChannels := by
  cases s <;> simp only [tryBlock, getChannelLiveLocal_try, getChannelLiveLocalRSS_try,
    getChannelLiveInvidious_try, getChannelLiveInvidiousRSS_try] at h
  all_goals (repeat' split at h) <;> simp_all [confirmedAbsent] <;>
    (subst h; simp [Component.pushErrorChannel])

theorem tryBlock_error_not_confirmed (s : Strategy) (w : AttemptWorld) (channel : Channel)
    (self : Component) (err : Err) (h : tryBlock s w channel self = .error err) :
    confirmedAbsent s w = false := by
  cases s <;> simp only [tryBlock, getChannelLiveLocal_try, getChannelLiveLocalRSS_try,
    getChannelLiveInvidious_try, getChannelLiveInvidiousRSS_try] at h
  all_goals (repeat' split at h) <;> simp_all [confirmedAbsent]

theorem run_errorChannels (env : Env) (w : Nat → AttemptWorld) (channel : Channel)
    (s : Strategy) (n : Nat) (self : Component) :
    ∃ T sl nl,
      (getChannelLive s env w channel n self).2.attempts
          = self.attempts ++ T ++ [(channel, sl, nl)]
        ∧ (∀ a ∈ T, confirmedAbsent a.2.1 (w a.2.2) = false)
        ∧ (if confirmedAbsent sl (w nl) then
            (getChannelLive s env w channel n self).2.errorChannels
                = self.errorChannels ++ [channel]
              ∧ (getChannelLive s env w channel n self).1 = []
          else (getChannelLive s env w channel n self).2.errorChannels
                = self.errorChannels) := by
  refine getChannelLive_induct env w channel
    (fun s n self r => ∃ T sl nl,
      r.2.attempts = self.attempts ++ T ++ [(channel, sl, nl)]
        ∧ (∀ a ∈ T, confirmedAbsent a.2.1 (w a.2.2) = false)
        ∧ (if confirmedAbsent sl (w nl) then
            r.2.errorChannels = self.errorChannels ++ [channel] ∧ r.1 = []
          else r.2.errorChannels = self.errorChannels))
    ?_ ?_ ?_ s n self
  · intro s n self r htry
    refine ⟨[], s, n, ?_, by simp, ?_⟩
    · rw [tryBlock_ok_attempts _ _ _ _ _ htry]; simp [Component.enter]
    · simpa [Component.enter] using tryBlock_ok_errorChannels _ _ _ _ _ htry
  · intro s n self err htry _
    refine ⟨[], s, n, by simp [Component.enter, Component.showToast], by simp, ?_⟩
    rw [tryBlock_error_not_confirmed _ _ _ _ _ htry]
    simp [Component.enter, Component.showToast]
  · intro s n self err s' t htry _ ih
    obtain ⟨T, sl, nl, hatt, hT, hlast⟩ := ih
    refine ⟨(channel, s, n) :: T, sl, nl, ?_, ?_, ?_⟩
    · rw [hatt]; simp [Component.enter, Component.showToast]
    · intro a ha
      rcases List.mem_cons.mp ha with rfl | ha
      · exact tryBlock_error_not_confirmed _ _ _ _ _ htry
      · exact hT a ha
    · have he : (((self.enter channel s n).showToast (errorToast s err)).notice t).errorChannels
          = self.errorChannels := by cases t <;> rfl
      rw [he] at hlast
      exact hlast

/-- C5 (amended): a task adds its channel to the error set exactly when its last attempt
is a local strategy whose own existence check finds the channel gone; the task
then returns the empty list, and no earlier attempt has found the channel gone -/
theorem confirmed_absent (s : Strategy) (env : Env) (w : Nat → AttemptWorld)
    (channel : Channel) (self : Component) :
    ∃ sl nl,
      (newAttempts self (getChannelLive s env w channel 0 self).2).getLast?
          = some (channel, sl, nl)
        ∧ (∀ a ∈ (newAttempts self (getChannelLive s env w channel 0 self).2).dropLast,
            confirmedAbsent a.2.1 (w a.2.2) = false)
        ∧ (if confirmedAbsent sl (w nl) then
            (getChannelLive s env w channel 0 self).2.errorChannels
                = self.errorChannels ++ [channel]
              ∧ (getChannelLive s env w channel 0 self).1 = []
          else (getChannelLive s env w channel 0 self).2.errorChannels
                = self.errorChannels) := by
  obtain ⟨T, sl, nl, hatt, hT, hlast⟩ := run_errorChannels env w channel s 0 self
  refine ⟨sl, nl, ?_, ?_, hlast⟩
  · rw [newAttempts_append _ _ (T ++ [(channel, sl, nl)]) (by simpa using hatt)]
    simp
  · rw [newAttempts_append _ _ (T ++ [(channel, sl, nl)]) (by simpa using hatt)]
    simpa using hT

/-- C5 (counterexample): the null result of the local API alone puts the channel in the
error set; the RSS feeds are never requested -/
theorem confirmed_absent_counterexample :
    (getChannelLive .local desktopEnv (fun _ => absentWorld) ⟨"UCabc"⟩ 0
        (freshComponent "local" true false true [⟨"UCabc"⟩])).2.errorChannels = [⟨"UCabc"⟩]
      ∧ (getChannelLive .local desktopEnv (fun _ => absentWorld) ⟨"UCabc"⟩ 0
        (freshComponent "local" true false true [⟨"UCabc"⟩])).2.attempts
          = [(⟨"UCabc"⟩, .local, 0)] := by
  have h : tryBlock .local absentWorld ⟨"UCabc"⟩
      ((freshComponent "local" true false true [⟨"UCabc"⟩]).enter ⟨"UCabc"⟩ .local 0)
      = .ok ([], ((freshComponent "local" true false true [⟨"UCabc"⟩]).enter
          ⟨"UCabc"⟩ .local 0).pushErrorChannel ⟨"UCabc"⟩) := rfl
  rw [getChannelLive_ok .local desktopEnv (fun _ => absentWorld) ⟨"UCabc"⟩ 0 _ _ h]
  exact ⟨rfl, rfl⟩

theorem nextOnFailure_remote (f : Bool) (s s' : Strategy) (n : Nat) (t : Option Toast)
    (hs : s.isLocal = false) (h : nextOnFailure false f s n = some (s', t)) :
    s'.isLocal = false := by
  have hlt := nextOnFailure_some_lt _ _ _ _ _ h
  match n, hlt with
  | 0, _ => cases s <;> simp [nextOnFailure, Strategy.isLocal] at h hs ⊢ <;>
      simp [← h.1, Strategy.isLocal]
  | 1, _ => cases s <;> simp [nextOnFailure, Strategy.isLocal] at h hs ⊢
  | 2, _ => cases s <;> simp [nextOnFailure, Strategy.isLocal] at h hs ⊢ <;>
      simp [← h.1, Strategy.isLocal]

/-- Outside the desktop application a run entered at a remote strategy records
remote strategies only. -/
theorem run_remote_only (env : Env) (w : Nat → AttemptWorld) (channel : Channel)
    (he : env.isElectron = false) (s : Strategy) (n : Nat) (self : Component) :
    s.isLocal = false →
      ∃ T, (getChannelLive s env w channel n self).2.attempts = self.attempts ++ T
        ∧ ∀ a ∈ T, a.2.1.isLocal = false := by
  refine getChannelLive_induct env w channel
    (fun s n self r => s.isLocal = false →
      ∃ T, r.2.attempts = self.attempts ++ T ∧ ∀ a ∈ T, a.2.1.isLocal = false)
    ?_ ?_ ?_ s n self
  · intro s n self r htry hs
    refine ⟨[(channel, s, n)], ?_, by simpa using hs⟩
    rw [tryBlock_ok_attempts _ _ _ _ _ htry]; simp [Component.enter]
  · intro s n self err _ _ hs
    exact ⟨[(channel, s, n)], by simp [Component.enter, Component.showToast], by simpa using hs⟩
  · intro s n self err s' t _ hnext ih hs
    rw [he] at hnext
    obtain ⟨T, hatt, hT⟩ := ih (nextOnFailure_remote _ _ _ _ _ hs hnext)
    refine ⟨(channel, s, n) :: T, ?_, ?_⟩
    · rw [hatt]; simp [Component.enter, Component.showToast]
    · intro a ha
      rcases List.mem_cons.mp ha with rfl | ha
      · exact hs
      · exact hT a ha

theorem nextOnFailure_gated (e f : Bool) (s s' : Strategy) (n : Nat) (t : Option Toast)
    (hs : s.isLocal = false) (hs' : s'.isLocal = true)
    (h : nextOnFailure e f s n = some (s', t)) : e = true ∧ f = true := by
  have hlt := nextOnFailure_some_lt _ _ _ _ _ h
  match n, hlt with
  | 0, _ => cases s <;> simp [nextOnFailure, Strategy.isLocal] at h hs ⊢ <;>
      simp [← h.1, Strategy.isLocal] at hs'
  | 1, _ => cases s <;> cases e <;> cases f <;> simp [nextOnFailure, Strategy.isLocal] at h hs ⊢
  | 2, _ => cases s <;> simp [nextOnFailure, Strategy.isLocal] at h hs ⊢ <;>
      simp [← h.1, Strategy.isLocal] at hs'

theorem run_gated (env : Env) (w : Nat → AttemptWorld) (channel : Channel)
    (s : Strategy) (n : Nat) (self : Component) :
    ∃ T, (getChannelLive s env w channel n self).2.attempts
        = self.attempts ++ (channel, s, n) :: T
      ∧ List.Chain (GatedStep env.isElectron self.backendFallback) (channel, s, n) T := by
  refine getChannelLive_induct env w channel
    (fun s n self r => ∃ T, r.2.attempts = self.attempts ++ (channel, s, n) :: T
      ∧ List.Chain (GatedStep env.isElectron self.backendFallback) (channel, s, n) T)
    ?_ ?_ ?_ s n self
  · intro s n self r htry
    refine ⟨[], ?_, List.Chain.nil⟩
    rw [tryBlock_ok_attempts _ _ _ _ _ htry]; simp [Component.enter]
  · intro s n self err _ _
    exact ⟨[], by simp [Component.enter, Component.showToast], List.Chain.nil⟩
  · intro s n self err s' t _ hnext ih
    obtain ⟨T, hatt, hT⟩ := ih
    refine ⟨(channel, s', n + 1) :: T, ?_, List.Chain.cons ?_ ?_⟩
    · rw [hatt]; simp [Component.enter, Component.showToast]
    · intro hs hs'
      exact nextOnFailure_gated _ _ _ _ _ _ hs hs' hnext
    · simpa using hT

theorem getChannelLive_frame (env : Env) (w : Nat → AttemptWorld) (channel : Channel)
    (s : Strategy) (n : Nat) (self : Component) :
    (getChannelLive s env w channel n self).2 =
      { self with
        attempts := (getChannelLive s env w channel n self).2.attempts
        toasts := (getChannelLive s env w channel n self).2.toasts
        errorChannels := (getChannelLive s env w channel n self).2.errorChannels } := by
  refine getChannelLive_induct env w channel
    (fun _ _ self r => r.2 =
      { self with attempts := r.2.attempts, toasts := r.2.toasts,
                  errorChannels := r.2.errorChannels })
    ?_ ?_ ?_ s n self
  · intro s n self r htry
    rcases tryBlock_ok_cases _ _ _ _ _ htry with h | ⟨h, _⟩ <;> rw [h] <;> rfl
  · intro s n self err _ _
    rfl
  · intro s n self err s' t _ _ ih
    rw [ih]
    cases t <;> rfl

theorem getChannelLive_toasts (env : Env) (w : Nat → AttemptWorld) (channel : Channel)
    (s : Strategy) (n : Nat) (self : Component) :
    ∃ T, (getChannelLive s env w channel n self).2.toasts = self.toasts ++ T
      ∧ Toast.forcingRSS ∉ T := by
  refine getChannelLive_induct env w channel
    (fun _ _ self r => ∃ T, r.2.toasts = self.toasts ++ T ∧ Toast.forcingRSS ∉ T)
    ?_ ?_ ?_ s n self
  · intro s n self r htry
    refine ⟨[], ?_, by simp⟩
    rcases tryBlock_ok_cases _ _ _ _ _ htry with h | ⟨h, _⟩ <;> rw [h] <;>
      simp [Component.enter, Component.pushErrorChannel]
  · intro s n self err _ _
    refine ⟨[errorToast s err], by simp [Component.enter, Component.showToast], ?_⟩
    cases s <;> simp [errorToast]
  · intro s n self err s' t _ hnext ih
    obtain ⟨T, hT, hmem⟩ := ih
    have hlt := nextOnFailure_some_lt _ _ _ _ _ hnext
    have ht : t ≠ some Toast.forcingRSS := by
      match n, hlt with
      | 0, _ => cases s <;> simp [nextOnFailure] at hnext <;> simp [← hnext.2]
      | 1, _ =>
        cases s <;> cases env.isElectron <;> cases self.backendFallback <;>
          simp [nextOnFailure] at hnext <;> simp [← hnext.2]
      | 2, _ => cases s <;> simp [nextOnFailure] at hnext <;> simp [← hnext.2]
    have he : errorToast s err ≠ Toast.forcingRSS := by cases s <;> simp [errorToast]
    cases t with
    | none =>
      refine ⟨errorToast s err :: T, ?_, ?_⟩
      · rw [hT]; simp [Component.enter, Component.showToast, Component.notice]
      · simpa using ⟨Ne.symm he, hmem⟩
    | some t =>
      refine ⟨errorToast s err :: t :: T, ?_, ?_⟩
      · rw [hT]; simp [Component.enter, Component.showToast, Component.notice]
      · have ht' : t ≠ Toast.forcingRSS := fun h => ht (by rw [h])
        simpa using ⟨Ne.symm he, Ne.symm ht', hmem⟩

theorem tryBlock_fst (s : Strategy) (w : AttemptWorld) (channel : Channel)
    (c1 c2 : Component) :
    (tryBlock s w channel c1).map Prod.fst = (tryBlock s w channel c2).map Prod.fst := by
  cases s <;> simp only [tryBlock, getChannelLiveLocal_try, getChannelLiveLocalRSS_try,
    getChannelLiveInvidious_try, getChannelLiveInvidiousRSS_try]
  all_goals (repeat' split) <;> simp_all [Except.map]

theorem tryBlock_ok_transfer (s : Strategy) (w : AttemptWorld) (channel : Channel)
    (c1 c2 : Component) (r : List Video × Component) (h : tryBlock s w channel c1 = .ok r) :
    ∃ r', tryBlock s w channel c2 = .ok r' ∧ r'.1 = r.1 := by
  have := tryBlock_fst s w channel c1 c2
  rw [h] at this
  cases h2 : tryBlock s w channel c2 with
  | ok r' => rw [h2] at this; simp [Except.map] at this; exact ⟨r', rfl, this.symm⟩
  | error e => rw [h2] at this; simp [Except.map] at this

theorem tryBlock_error_transfer (s : Strategy) (w : AttemptWorld) (channel : Channel)
    (c1 c2 : Component) (err : Err) (h : tryBlock s w channel c1 = .error err) :
    tryBlock s w channel c2 = .error err := by
  have := tryBlock_fst s w channel c1 c2
  rw [h] at this
  cases h2 : tryBlock s w channel c2 with
  | ok r' => rw [h2] at this; simp [Except.map] at this
  | error e => rw [h2] at this; simp [Except.map] at this; rw [this]

/-- The videos a run returns depend on the component through the fallback
preference only. -/
theorem getChannelLive_fst_congr (env : Env) (w : Nat → AttemptWorld) (channel : Channel)
    (s : Strategy) (n : Nat) (self : Component) :
    ∀ c2 : Component, c2.backendFallback = self.backendFallback →
      (getChannelLive s env w channel n c2).1 = (getChannelLive s env w channel n self).1 := by
  refine getChannelLive_induct env w channel
    (fun s n self r => ∀ c2 : Component, c2.backendFallback = self.backendFallback →
      (getChannelLive s env w channel n c2).1 = r.1)
    ?_ ?_ ?_ s n self
  · intro s n self r htry c2 _
    obtain ⟨r', h', hr⟩ := tryBlock_ok_transfer _ _ _ _ (c2.enter channel s n) _ htry
    rw [getChannelLive_ok _ _ _ _ _ _ _ h', hr]
  · intro s n self err htry hnext c2 hb
    have h' := tryBlock_error_transfer _ _ _ _ (c2.enter channel s n) _ htry
    rw [getChannelLive_error _ _ _ _ _ _ _ h', hb, hnext]
  · intro s n self err s' t htry hnext ih c2 hb
    have h' := tryBlock_error_transfer _ _ _ _ (c2.enter channel s n) _ htry
    rw [getChannelLive_error _ _ _ _ _ _ _ h', hb, hnext]
    exact ih _ (by simp [hb])

theorem getChannelLive_backendPreference (env : Env) (w : Nat → AttemptWorld)
    (channel : Channel) (s : Strategy) (n : Nat) (self : Component) :
    (getChannelLive s env w channel n self).2.backendPreference = self.backendPreference := by
  rw [getChannelLive_frame]

theorem getChannelLive_backendFallback (env : Env) (w : Nat → AttemptWorld)
    (channel : Channel) (s : Strategy) (n : Nat) (self : Component) :
    (getChannelLive s env w channel n self).2.backendFallback = self.backendFallback := by
  rw [getChannelLive_frame]

theorem getChannelLive_useRssFeeds (env : Env) (w : Nat → AttemptWorld)
    (channel : Channel) (s : Strategy) (n : Nat) (self : Component) :
    (getChannelLive s env w channel n self).2.useRssFeeds = self.useRssFeeds := by
  rw [getChannelLive_frame]

theorem getChannelLive_progressLog (env : Env) (w : Nat → AttemptWorld)
    (channel : Channel) (s : Strategy) (n : Nat) (self : Component) :
    (getChannelLive s env w channel n self).2.progressLog = self.progressLog := by
  rw [getChannelLive_frame]

theorem getChannelLive_cacheWrites (env : Env) (w : Nat → AttemptWorld)
    (channel : Channel) (s : Strategy) (n : Nat) (self : Component) :
    (getChannelLive s env w channel n self).2.cacheWrites = self.cacheWrites := by
  rw [getChannelLive_frame]

theorem getChannelLive_liveCache (env : Env) (w : Nat → AttemptWorld)
    (channel : Channel) (s : Strategy) (n : Nat) (self : Component) :
    (getChannelLive s env w channel n self).2.liveCache = self.liveCache := by
  rw [getChannelLive_frame]

/-- The task of a channel is a run of its start strategy followed by the
progress update and the cache write. -/
theorem channelTask_eq (env : Env) (w : Nat → AttemptWorld) (useRss : Bool)
    (channels : List Channel) (index : Nat) (channel : Channel) (st : Cycle) :
    channelTask env w useRss channels index channel st =
      { self :=
          ((getChannelLive (startStrategy env st.self useRss) env w channel 0 st.self).2
            |>.setProgressBarPercentage (percentage env (st.channelCount + 1) channels.length)
            |>.updateSubscriptionLiveCacheByChannel channel.id
              (getChannelLive (startStrategy env st.self useRss) env w channel 0 st.self).1)
        channelCount := st.channelCount + 1
        settled := st.settled ++
          [(index, (getChannelLive (startStrategy env st.self useRss) env w channel 0
              st.self).1)] } := by
  unfold channelTask startStrategy percentage
  by_cases h1 : (!env.isElectron || decide (st.self.backendPreference = "invidious")) = true <;>
    cases useRss <;> simp [h1, getChannelLive]

/-- Induction along the tasks of a cycle. -/
theorem settleTasks_induct (env : Env) (W : Nat → Nat → AttemptWorld) (useRss : Bool)
    (channels : List Channel) (Q : Cycle → Prop)
    (step : ∀ st index channel, channels[index]? = some channel → Q st →
      Q (channelTask env (W index) useRss channels index channel st)) :
    ∀ settle st, Q st → Q (settleTasks env W useRss channels settle st) := by
  intro settle
  induction settle with
  | nil => intro st h; simpa [settleTasks] using h
  | cons index rest ih =>
    intro st h
    unfold settleTasks
    cases hc : channels[index]? with
    | none => simpa using ih st h
    | some channel => simpa using ih _ (step st index channel hc h)

theorem settleTasks_channelCount (env : Env) (W : Nat → Nat → AttemptWorld) (useRss : Bool)
    (channels : List Channel) (settle : List Nat) (hs : ∀ i ∈ settle, i < channels.length) :
    ∀ st, (settleTasks env W useRss channels settle st).channelCount
      = st.channelCount + settle.length := by
  induction settle with
  | nil => intro st; simp [settleTasks]
  | cons index rest ih =>
    intro st
    have hi : index < channels.length := hs index (by simp)
    unfold settleTasks
    rw [List.getElem?_eq_getElem hi]
    simp only
    rw [ih (fun i h => hs i (by simp [h])), channelTask_eq]
    simp
    omega

theorem settleTasks_progressLog (env : Env) (W : Nat → Nat → AttemptWorld) (useRss : Bool)
    (channels : List Channel) (settle : List Nat) (hs : ∀ i ∈ settle, i < channels.length) :
    ∀ st, (settleTasks env W useRss channels settle st).self.progressLog
      = st.self.progressLog ++ (List.range settle.length).map
          (fun k => percentage env (st.channelCount + k + 1) channels.length) := by
  induction settle with
  | nil => intro st; simp [settleTasks]
  | cons index rest ih =>
    intro st
    have hi : index < channels.length := hs index (by simp)
    unfold settleTasks
    rw [List.getElem?_eq_getElem hi]
    simp only
    rw [ih (fun i h => hs i (by simp [h])), channelTask_eq]
    simp only [Component.updateSubscriptionLiveCacheByChannel,
      Component.setProgressBarPercentage, getChannelLive_progressLog, List.length_cons,
      List.range_succ_eq_map, List.map_cons, List.map_map, List.append_assoc,
      List.singleton_append, Nat.add_zero]
    congr 2
    apply List.map_congr_left
    intro k _
    simp only [Function.comp]
    congr 1
    omega

theorem loadVideos_eq (env : Env) (W : Nat → Nat → AttemptWorld) (settle : List Nat)
    (self : Component) (hN : self.activeSubscriptionList.length ≠ 0) :
    loadVideosForSubscriptionsFromRemote env W settle self =
      { (cycleEnd env W settle self).self with
        videoList := env.updateVideoListAfterProcessing
          ((List.range self.activeSubscriptionList.length).flatMap
            (fun index => (((cycleEnd env W settle self).settled).lookup index).getD []))
        isLoading := false
        showProgressBar := false } := by
  unfold loadVideosForSubscriptionsFromRemote cycleEnd cycleStart forcesRss
  rw [if_neg hN]
  by_cases h : (decide (self.activeSubscriptionList.length ≥ 125) && !self.useRssFeeds) = true
  · have hu : self.useRssFeeds = false := by
      cases hx : self.useRssFeeds
      · rfl
      · simp [hx] at h
    simp [h, hu, Component.updateShowProgressBar, Component.setProgressBarPercentage,
      Component.showToast]
  · have h' : (decide (self.activeSubscriptionList.length ≥ 125) && !self.useRssFeeds) = false := by
      simpa using h
    simp only [h', Bool.false_or, Bool.false_eq_true, if_false]
    simp [Component.updateShowProgressBar, Component.setProgressBarPercentage]

theorem percentage_mono (env : Env) (hmono : Monotone env.roundDouble) (total : Nat)
    (a b : Nat) (hab : a ≤ b) : percentage env a total ≤ percentage env b total := by
  unfold percentage
  apply hmono
  apply mul_le_mul_of_nonneg_right _ (by norm_num)
  apply hmono
  apply div_le_div_of_nonneg_right _ (Nat.cast_nonneg total)
  exact_mod_cast hab

theorem percentage_nonneg (env : Env) (hmono : Monotone env.roundDouble)
    (h0 : env.roundDouble 0 = 0) (total a : Nat) : 0 ≤ percentage env a total := by
  unfold percentage
  have h1 : 0 ≤ env.roundDouble ((a : ℚ) / (total : ℚ)) := by
    rw [← h0]
    exact hmono (div_nonneg (Nat.cast_nonneg a) (Nat.cast_nonneg total))
  calc (0 : ℚ) = env.roundDouble 0 := h0.symm
    _ ≤ _ := hmono (mul_nonneg h1 (by norm_num))

theorem percentage_full (env : Env) (h1 : env.roundDouble 1 = 1)
    (h100 : env.roundDouble 100 = 100) (total : Nat) (ht : 1 ≤ total) :
    percentage env total total = 100 := by
  unfold percentage
  have hne : (total : ℚ) ≠ 0 := by exact_mod_cast (by omega : total ≠ 0)
  rw [div_self hne, h1, one_mul, h100]

theorem cycle_progress (env : Env) (W : Nat → Nat → AttemptWorld) (settle : List Nat)
    (self : Component) (hN : 1 ≤ self.activeSubscriptionList.length)
    (hsettle : settle.Perm (List.range self.activeSubscriptionList.length)) :
    newProgress self (loadVideosForSubscriptionsFromRemote env W settle self)
      = 0 :: (List.range self.activeSubscriptionList.length).map
          (fun k => percentage env (k + 1) self.activeSubscriptionList.length) := by
  have hs : ∀ i ∈ settle, i < self.activeSubscriptionList.length := by
    intro i hi
    exact List.mem_range.mp (hsettle.mem_iff.mp hi)
  have hlen : settle.length = self.activeSubscriptionList.length := by
    simpa using hsettle.length_eq
  rw [loadVideos_eq env W settle self (by omega)]
  unfold newProgress cycleEnd
  simp only
  rw [settleTasks_progressLog env W _ _ settle hs, hlen]
  have h0 : (cycleStart self).progressLog = self.progressLog ++ [0] := by
    unfold cycleStart
    split <;> rfl
  simp [h0]

/-- C9: the percentages published during a cycle over `N ≥ 1` channels never decrease
and the one published after the last settlement is 100 -/
theorem progress_monotone (env : Env) (W : Nat → Nat → AttemptWorld) (settle : List Nat)
    (self : Component) (hmono : Monotone env.roundDouble)
    (h0 : env.roundDouble 0 = 0) (h1 : env.roundDouble 1 = 1)
    (h100 : env.roundDouble 100 = 100)
    (hN : 1 ≤ self.activeSubscriptionList.length)
    (hsettle : settle.Perm (List.range self.activeSubscriptionList.length)) :
    newProgress self (loadVideosForSubscriptionsFromRemote env W settle self)
        = 0 :: (List.range self.activeSubscriptionList.length).map
            (fun k => percentage env (k + 1) self.activeSubscriptionList.length)
      ∧ List.Chain' (fun a b => a ≤ b)
          (newProgress self (loadVideosForSubscriptionsFromRemote env W settle self))
      ∧ (newProgress self (loadVideosForSubscriptionsFromRemote env W settle self)).getLast?
          = some 100 := by
  rw [cycle_progress env W settle self hN hsettle]
  refine ⟨rfl, ?_, ?_⟩
  · apply List.Pairwise.chain'
    rw [List.pairwise_cons]
    constructor
    · intro x hx
      obtain ⟨k, _, rfl⟩ := List.mem_map.mp hx
      exact percentage_nonneg env hmono h0 _ _
    · rw [List.pairwise_map]
      exact (List.pairwise_lt_range _).imp
        (fun hab => percentage_mono env hmono _ _ _ (by omega))
  · obtain ⟨m, hm⟩ : ∃ m, self.activeSubscriptionList.length = m + 1 :=
      ⟨self.activeSubscriptionList.length - 1, by omega⟩
    have hfull := percentage_full env h1 h100 _ hN
    rw [hm] at hfull ⊢
    rw [List.range_succ, List.map_append]
    simp [List.getLast?_cons, hfull]

/-- C9 (witness): two channels settling in reverse order, with exact arithmetic -/
theorem progress_monotone_witness :
    Monotone desktopEnv.roundDouble
      ∧ desktopEnv.roundDouble 0 = 0 ∧ desktopEnv.roundDouble 1 = 1
      ∧ desktopEnv.roundDouble 100 = 100
      ∧ 1 ≤ (freshComponent "local" true false true
          [⟨"UCabc"⟩, ⟨"UCxyz"⟩]).activeSubscriptionList.length
      ∧ [1, 0].Perm (List.range (freshComponent "local" true false true
          [⟨"UCabc"⟩, ⟨"UCxyz"⟩]).activeSubscriptionList.length)
      ∧ (newProgress (freshComponent "local" true false true [⟨"UCabc"⟩, ⟨"UCxyz"⟩])
          (loadVideosForSubscriptionsFromRemote desktopEnv (fun _ _ => failingWorld) [1, 0]
            (freshComponent "local" true false true [⟨"UCabc"⟩, ⟨"UCxyz"⟩]))).getLast?
        = some 100 :=
  ⟨monotone_id, rfl, rfl, rfl, by decide, by decide,
    (progress_monotone desktopEnv (fun _ _ => failingWorld) [1, 0]
      (freshComponent "local" true false true [⟨"UCabc"⟩, ⟨"UCxyz"⟩])
      monotone_id rfl rfl rfl (by decide) (by decide)).2.2⟩

theorem getLiveCacheByChannel_update (c : Component) (channelId : String)
    (videos : List Video) (other : String) :
    (c.updateSubscriptionLiveCacheByChannel channelId videos).getLiveCacheByChannel other
      = if channelId = other then some { channelId := channelId, videos := some videos }
        else c.getLiveCacheByChannel other := by
  unfold Component.updateSubscriptionLiveCacheByChannel Component.getLiveCacheByChannel
  by_cases h : channelId = other
  · simp [h]
  · simp only [List.find?_cons, h, decide_False, if_false, List.find?_filter]
    congr 1
    funext a
    by_cases ha : a.channelId = other
    · have h1 : ¬ a.channelId = channelId := fun hx => h (hx ▸ ha)
      have h2 : ¬ other = channelId := fun hx => h hx.symm
      simp [ha, h1, h2]
    · simp [ha]

theorem startStrategy_congr (env : Env) (c1 c2 : Component) (useRss : Bool)
    (hp : c1.backendPreference = c2.backendPreference) :
    startStrategy env c1 useRss = startStrategy env c2 useRss := by
  unfold startStrategy
  rw [hp]

theorem taskVideos_of_prefs (env : Env) (w : Nat → AttemptWorld) (useRss : Bool)
    (self c : Component) (channel : Channel)
    (hp : c.backendPreference = self.backendPreference)
    (hb : c.backendFallback = self.backendFallback) :
    (getChannelLive (startStrategy env c useRss) env w channel 0 c).1
      = taskVideos env w useRss self channel := by
  unfold taskVideos
  rw [startStrategy_congr env c self useRss hp]
  exact getChannelLive_fst_congr env w channel _ 0 self c hb

theorem channelTask_prefs (env : Env) (w : Nat → AttemptWorld) (useRss : Bool)
    (channels : List Channel) (index : Nat) (channel : Channel) (st : Cycle) :
    (channelTask env w useRss channels index channel st).self.backendPreference
        = st.self.backendPreference
      ∧ (channelTask env w useRss channels index channel st).self.backendFallback
        = st.self.backendFallback
      ∧ (channelTask env w useRss channels index channel st).self.useRssFeeds
        = st.self.useRssFeeds := by
  rw [channelTask_eq]
  simp [Component.updateSubscriptionLiveCacheByChannel, Component.setProgressBarPercentage,
    getChannelLive_backendPreference, getChannelLive_backendFallback,
    getChannelLive_useRssFeeds]

theorem settleTasks_cacheWrites (env : Env) (W : Nat → Nat → AttemptWorld) (useRss : Bool)
    (channels : List Channel) (self : Component) (settle : List Nat) :
    ∀ st : Cycle, st.self.backendPreference = self.backendPreference →
      st.self.backendFallback = self.backendFallback →
      (settleTasks env W useRss channels settle st).self.cacheWrites
        = st.self.cacheWrites ++ settle.filterMap (fun i =>
            channels[i]?.map (fun ch => (ch.id, taskVideos env (W i) useRss self ch))) := by
  induction settle with
  | nil => intro st _ _; simp [settleTasks]
  | cons index rest ih =>
    intro st hp hb
    unfold settleTasks
    cases hc : channels[index]? with
    | none => simpa [hc] using ih st hp hb
    | some channel =>
      have hpr := channelTask_prefs env (W index) useRss channels index channel st
      simp only
      rw [ih _ (hpr.1.trans hp) (hpr.2.1.trans hb), channelTask_eq]
      simp [hc, Component.updateSubscriptionLiveCacheByChannel,
        Component.setProgressBarPercentage, getChannelLive_cacheWrites,
        taskVideos_of_prefs env (W index) useRss self st.self channel hp hb]

theorem settleTasks_cache_untouched (env : Env) (W : Nat → Nat → AttemptWorld)
    (useRss : Bool) (channels : List Channel) (channelId : String) (settle : List Nat)
    (hs : ∀ j ∈ settle, ∀ c, channels[j]? = some c → c.id ≠ channelId) :
    ∀ st : Cycle,
      (settleTasks env W useRss channels settle st).self.getLiveCacheByChannel channelId
        = st.self.getLiveCacheByChannel channelId := by
  induction settle with
  | nil => intro st; simp [settleTasks]
  | cons index rest ih =>
    intro st
    unfold settleTasks
    cases hc : channels[index]? with
    | none => simpa using ih (fun j hj => hs j (by simp [hj])) st
    | some channel =>
      simp only
      rw [ih (fun j hj => hs j (by simp [hj])), channelTask_eq]
      simp only
      rw [getLiveCacheByChannel_update, if_neg (hs index (by simp) channel hc)]
      simp [Component.getLiveCacheByChannel, Component.setProgressBarPercentage,
        getChannelLive_liveCache]

theorem settleTasks_cache_written (env : Env) (W : Nat → Nat → AttemptWorld)
    (useRss : Bool) (channels : List Channel) (self : Component) (settle : List Nat)
    (hnd : settle.Nodup)
    (hinj : ∀ (i j : Nat) (ci cj : Channel), channels[i]? = some ci → channels[j]? = some cj →
      ci.id = cj.id → i = j) :
    ∀ st : Cycle, st.self.backendPreference = self.backendPreference →
      st.self.backendFallback = self.backendFallback →
      ∀ i ∈ settle, ∀ ch, channels[i]? = some ch →
        (settleTasks env W useRss channels settle st).self.getLiveCacheByChannel ch.id
          = some { channelId := ch.id
                   videos := some (taskVideos env (W i) useRss self ch) } := by
  induction settle with
  | nil => intro st _ _ i hi; simp at hi
  | cons index rest ih =>
    intro st hp hb i hi ch hch
    have hnd' := List.nodup_cons.mp hnd
    unfold settleTasks
    rcases List.mem_cons.mp hi with rfl | hi'
    · rw [hch]
      simp only
      rw [settleTasks_cache_untouched env W useRss channels ch.id rest
        (fun j hj c hc hid => hnd'.1 ((hinj j i c ch hc hch hid) ▸ hj)), channelTask_eq]
      simp only
      rw [getLiveCacheByChannel_update, if_pos rfl,
        taskVideos_of_prefs env (W i) useRss self st.self ch hp hb]
    · cases hc : channels[index]? with
      | none => simpa using ih hnd'.2 st hp hb i hi' ch hch
      | some channel =>
        have hpr := channelTask_prefs env (W index) useRss channels index channel st
        simpa using ih hnd'.2 _ (hpr.1.trans hp) (hpr.2.1.trans hb) i hi' ch hch

theorem range_filterMap_getElem? {α β : Type} (l : List α) (f : Nat → α → β) :
    (List.range l.length).filterMap (fun i => l[i]?.map (f i))
      = (List.range l.length).zipWith (fun i a => f i a) l := by
  induction l using List.reverseRecOn with
  | nil => simp
  | append_singleton l a ih =>
    rw [List.length_append, List.length_singleton, List.range_succ, List.filterMap_append]
    have h1 : (List.range l.length).filterMap (fun i => (l ++ [a])[i]?.map (f i))
        = (List.range l.length).filterMap (fun i => l[i]?.map (f i)) := by
      apply List.filterMap_congr
      intro i hi
      rw [List.getElem?_append_left (List.mem_range.mp hi)]
    rw [h1, ih]
    have h2 : (List.range l.length ++ [l.length]).zipWith (fun i a => f i a) (l ++ [a])
        = (List.range l.length).zipWith (fun i a => f i a) l ++ [f l.length a] := by
      rw [List.zipWith_append _ _ _ _ _ (by simp)]
      simp
    rw [h2]
    simp

theorem zipWith_snd_eq_map {α β : Type} (g : α → β) (l : List α) :
    ∀ xs : List Nat, xs.length = l.length → List.zipWith (fun _ a => g a) xs l = l.map g := by
  induction l with
  | nil => intro xs _; simp
  | cons a l ih =>
    intro xs hxs
    cases xs with
    | nil => simp at hxs
    | cons x xs => simp [ih xs (by simpa using hxs)]

theorem cycleStart_prefs (self : Component) :
    (cycleStart self).backendPreference = self.backendPreference
      ∧ (cycleStart self).backendFallback = self.backendFallback
      ∧ (cycleStart self).useRssFeeds = self.useRssFeeds
      ∧ (cycleStart self).cacheWrites = self.cacheWrites
      ∧ (cycleStart self).attempts = self.attempts := by
  unfold cycleStart
  split <;> exact ⟨rfl, rfl, rfl, rfl, rfl⟩

theorem settleTasks_append (env : Env) (W : Nat → Nat → AttemptWorld) (useRss : Bool)
    (channels : List Channel) (pre post : List Nat) :
    ∀ st : Cycle, settleTasks env W useRss channels (pre ++ post) st
      = settleTasks env W useRss channels post (settleTasks env W useRss channels pre st) := by
  induction pre with
  | nil => intro st; simp [settleTasks]
  | cons index rest ih =>
    intro st
    simp only [List.cons_append, settleTasks]
    cases channels[index]? with
    | none => exact ih st
    | some channel => exact ih _

theorem settleTasks_prefs (env : Env) (W : Nat → Nat → AttemptWorld) (useRss : Bool)
    (channels : List Channel) (self : Component) (settle : List Nat) (st : Cycle)
    (hp : st.self.backendPreference = self.backendPreference)
    (hb : st.self.backendFallback = self.backendFallback) :
    (settleTasks env W useRss channels settle st).self.backendPreference
        = self.backendPreference
      ∧ (settleTasks env W useRss channels settle st).self.backendFallback
        = self.backendFallback := by
  refine settleTasks_induct env W useRss channels
    (fun st' => st'.self.backendPreference = self.backendPreference
      ∧ st'.self.backendFallback = self.backendFallback) ?_ settle st ⟨hp, hb⟩
  intro st' index channel _ ⟨hp', hb'⟩
  have hpr := channelTask_prefs env (W index) useRss channels index channel st'
  exact ⟨hpr.1.trans hp', hpr.2.1.trans hb'⟩

/-- The cache entry of a channel id after the tasks have settled is the one
written by the last settled task for that id. -/
theorem settleTasks_cache_last (env : Env) (W : Nat → Nat → AttemptWorld)
    (useRss : Bool) (channels : List Channel) (self : Component) (pre post : List Nat)
    (j : Nat) (channel : Channel) (st : Cycle)
    (hp : st.self.backendPreference = self.backendPreference)
    (hb : st.self.backendFallback = self.backendFallback)
    (hj : channels[j]? = some channel)
    (hpost : ∀ k ∈ post, ∀ c, channels[k]? = some c → c.id ≠ channel.id) :
    (settleTasks env W useRss channels (pre ++ j :: post) st).self.getLiveCacheByChannel
        channel.id
      = some { channelId := channel.id
               videos := some (taskVideos env (W j) useRss self channel) } := by
  have hpr := settleTasks_prefs env W useRss channels self pre st hp hb
  rw [settleTasks_append]
  rw [settleTasks, hj]
  simp only
  rw [settleTasks_cache_untouched env W useRss channels channel.id post hpost, channelTask_eq]
  simp only
  rw [getLiveCacheByChannel_update, if_pos rfl,
    taskVideos_of_prefs env (W j) useRss self _ channel hpr.1 hpr.2]

theorem exists_last_of_mem (p : Nat → Prop) :
    ∀ l : List Nat, (∃ x ∈ l, p x) →
      ∃ pre j post, l = pre ++ j :: post ∧ p j ∧ ∀ k ∈ post, ¬ p k := by
  intro l
  induction l with
  | nil => intro ⟨x, hx, _⟩; simp at hx
  | cons a t ih =>
    intro ⟨x, hx, hpx⟩
    by_cases ht : ∃ y ∈ t, p y
    · obtain ⟨pre, j, post, hl, hj, hpost⟩ := ih ht
      exact ⟨a :: pre, j, post, by simp [hl], hj, hpost⟩
    · have hpa : p a := by
        rcases List.mem_cons.mp hx with rfl | hx'
        · exact hpx
        · exact absurd ⟨x, hx', hpx⟩ ht
      exact ⟨[], a, t, rfl, hpa, fun k hk hpk => ht ⟨k, hk, hpk⟩⟩

/-- The cache writes of a cycle: one per settled task, in the order of
settlement, each with the list the task returned. -/
theorem cycle_cacheWrites (env : Env) (W : Nat → Nat → AttemptWorld) (settle : List Nat)
    (self : Component) (hN : self.activeSubscriptionList.length ≠ 0) :
    newCacheWrites self (loadVideosForSubscriptionsFromRemote env W settle self)
      = settle.filterMap (fun i => self.activeSubscriptionList[i]?.map (fun channel =>
          (channel.id,
            taskVideos env (W i) (forcesRss self || self.useRssFeeds) self channel))) := by
  have hpre := cycleStart_prefs self
  rw [loadVideos_eq env W settle self hN]
  unfold newCacheWrites cycleEnd
  simp only
  rw [settleTasks_cacheWrites env W _ _ self settle _ hpre.1 hpre.2.1, hpre.2.2.2.1]
  simp

/-- C6 (amended): a cycle over a non-empty list writes the cache once per list entry, each
time with the list the task of that entry returned, so once per channel when the
ids are distinct; afterwards the entry of every subscribed channel holds the list
of the last settled task for its id, which is its own task when the ids are
distinct -/
theorem cache_write_through (env : Env) (W : Nat → Nat → AttemptWorld) (settle : List Nat)
    (self : Component) (hN : 1 ≤ self.activeSubscriptionList.length)
    (hsettle : settle.Perm (List.range self.activeSubscriptionList.length)) :
    newCacheWrites self (loadVideosForSubscriptionsFromRemote env W settle self)
        = settle.filterMap (fun i => self.activeSubscriptionList[i]?.map (fun channel =>
            (channel.id,
              taskVideos env (W i) (forcesRss self || self.useRssFeeds) self channel)))
      ∧ ((newCacheWrites self
            (loadVideosForSubscriptionsFromRemote env W settle self)).map Prod.fst).Perm
          (self.activeSubscriptionList.map (fun channel => channel.id))
      ∧ (∀ (i : Nat) (channel : Channel), self.activeSubscriptionList[i]? = some channel →
          ∃ (pre : List Nat) (j : Nat) (post : List Nat) (channel' : Channel),
            settle = pre ++ j :: post
            ∧ self.activeSubscriptionList[j]? = some channel'
            ∧ channel'.id = channel.id
            ∧ (∀ k ∈ post, ∀ c, self.activeSubscriptionList[k]? = some c → c.id ≠ channel.id)
            ∧ (loadVideosForSubscriptionsFromRemote env W settle self).getLiveCacheByChannel
                channel.id
              = some { channelId := channel.id
                       videos := some (taskVideos env (W j)
                         (forcesRss self || self.useRssFeeds) self channel') })
      ∧ ((self.activeSubscriptionList.map (fun channel => channel.id)).Nodup →
          ((newCacheWrites self
              (loadVideosForSubscriptionsFromRemote env W settle self)).map Prod.fst).Nodup
            ∧ ∀ (i : Nat) (channel : Channel),
              self.activeSubscriptionList[i]? = some channel →
              (loadVideosForSubscriptionsFromRemote env W settle self).getLiveCacheByChannel
                  channel.id
                = some { channelId := channel.id
                         videos := some (taskVideos env (W i)
                           (forcesRss self || self.useRssFeeds) self channel) }) := by
  have hpre := cycleStart_prefs self
  have hw := cycle_cacheWrites env W settle self (by omega)
  have hperm : ((newCacheWrites self
      (loadVideosForSubscriptionsFromRemote env W settle self)).map Prod.fst).Perm
        (self.activeSubscriptionList.map (fun channel => channel.id)) := by
    rw [hw]
    refine ((hsettle.filterMap _).map Prod.fst).trans ?_
    rw [range_filterMap_getElem?, List.map_zipWith]
    simp only
    rw [zipWith_snd_eq_map (fun channel : Channel => channel.id) _ _ (by simp)]
  have hlt : ∀ (i : Nat) (channel : Channel), self.activeSubscriptionList[i]? = some channel →
      i < self.activeSubscriptionList.length := by
    intro i channel hch
    by_contra hcon
    rw [List.getElem?_eq_none (by omega)] at hch
    exact absurd hch (by simp)
  refine ⟨hw, hperm, ?_, ?_⟩
  · intro i channel hch
    have hmem : i ∈ settle := hsettle.mem_iff.mpr (List.mem_range.mpr (hlt i channel hch))
    obtain ⟨pre, j, post, hl, ⟨channel', hj, hid⟩, hpost⟩ := exists_last_of_mem
      (fun k => ∃ c, self.activeSubscriptionList[k]? = some c ∧ c.id = channel.id)
      settle ⟨i, hmem, channel, hch, rfl⟩
    have hpost' : ∀ k ∈ post, ∀ c, self.activeSubscriptionList[k]? = some c →
        c.id ≠ channel'.id := by
      intro k hk c hc hcid
      exact hpost k hk ⟨c, hc, hcid.trans hid⟩
    refine ⟨pre, j, post, channel', hl, hj, hid, fun k hk c hc hcid => hpost k hk ⟨c, hc, hcid⟩, ?_⟩
    have := settleTasks_cache_last env W (forcesRss self || self.useRssFeeds)
      self.activeSubscriptionList self pre post j channel'
      { self := cycleStart self, channelCount := 0, settled := [] } hpre.1 hpre.2.1 hj hpost'
    rw [loadVideos_eq env W settle self (by omega), hl, ← hid]
    simpa [Component.getLiveCacheByChannel, cycleEnd] using this
  · intro hnodup
    refine ⟨hperm.nodup_iff.mpr hnodup, ?_⟩
    intro i channel hch
    rw [loadVideos_eq env W settle self (by omega)]
    have hmem : i ∈ settle := hsettle.mem_iff.mpr (List.mem_range.mpr (hlt i channel hch))
    have hnd : settle.Nodup := hsettle.nodup_iff.mpr (List.nodup_range _)
    have hinj : ∀ (i j : Nat) (ci cj : Channel), self.activeSubscriptionList[i]? = some ci →
        self.activeSubscriptionList[j]? = some cj → ci.id = cj.id → i = j := by
      intro i j ci cj hi hj hid
      have hi' : i < (self.activeSubscriptionList.map (fun channel => channel.id)).length := by
        simpa using hlt i ci hi
      apply List.getElem?_inj hi' hnodup
      simp [hi, hj, hid]
    have := settleTasks_cache_written env W (forcesRss self || self.useRssFeeds)
      self.activeSubscriptionList self settle hnd hinj
      { self := cycleStart self, channelCount := 0, settled := [] } hpre.1 hpre.2.1
      i hmem channel hch
    simpa [Component.getLiveCacheByChannel, cycleEnd] using this

/-- C6 (witness): two distinct channels settling in reverse order -/
theorem cache_write_through_witness :
    1 ≤ (freshComponent "local" true false true
        [⟨"UCabc"⟩, ⟨"UCxyz"⟩]).activeSubscriptionList.length
      ∧ [1, 0].Perm (List.range (freshComponent "local" true false true
          [⟨"UCabc"⟩, ⟨"UCxyz"⟩]).activeSubscriptionList.length)
      ∧ ((newCacheWrites (freshComponent "local" true false true [⟨"UCabc"⟩, ⟨"UCxyz"⟩])
          (loadVideosForSubscriptionsFromRemote desktopEnv (fun _ _ => failingWorld) [1, 0]
            (freshComponent "local" true false true [⟨"UCabc"⟩, ⟨"UCxyz"⟩]))).map
              Prod.fst).Perm
          ((freshComponent "local" true false true
            [⟨"UCabc"⟩, ⟨"UCxyz"⟩]).activeSubscriptionList.map (fun channel => channel.id)) :=
  ⟨by decide, by decide,
    (cache_write_through desktopEnv (fun _ _ => failingWorld) [1, 0]
      (freshComponent "local" true false true [⟨"UCabc"⟩, ⟨"UCxyz"⟩])
      (by decide) (by decide)).2.1⟩

/-- C6 (counterexample): a list that holds the channel UCabc twice gets two cache writes
for it, the first with the list of the first task and the second replacing it
with the empty list of the second task -/
theorem cache_write_through_counterexample :
    1 ≤ (freshComponent "local" false false true
        [⟨"UCabc"⟩, ⟨"UCabc"⟩]).activeSubscriptionList.length
      ∧ [0, 1].Perm (List.range (freshComponent "local" false false true
          [⟨"UCabc"⟩, ⟨"UCabc"⟩]).activeSubscriptionList.length)
      ∧ newCacheWrites (freshComponent "local" false false true [⟨"UCabc"⟩, ⟨"UCabc"⟩])
          (loadVideosForSubscriptionsFromRemote desktopEnv
            (fun i _ => if i = 0 then liveWorld else failingWorld) [0, 1]
            (freshComponent "local" false false true [⟨"UCabc"⟩, ⟨"UCabc"⟩]))
        = [("UCabc", [⟨"video", "v1"⟩]), ("UCabc", [])] := by
  refine ⟨by decide, by decide, ?_⟩
  rw [cycle_cacheWrites _ _ _ _ (by decide)]
  have h0 : tryBlock .local liveWorld ⟨"UCabc"⟩
      ((freshComponent "local" false false true [⟨"UCabc"⟩, ⟨"UCabc"⟩]).enter
        ⟨"UCabc"⟩ .local 0)
      = .ok ([⟨"video", "v1"⟩],
          (freshComponent "local" false false true [⟨"UCabc"⟩, ⟨"UCabc"⟩]).enter
            ⟨"UCabc"⟩ .local 0) := rfl
  have t0 : taskVideos desktopEnv (fun _ => liveWorld) false
      (freshComponent "local" false false true [⟨"UCabc"⟩, ⟨"UCabc"⟩]) ⟨"UCabc"⟩
      = [⟨"video", "v1"⟩] := by
    have hs : startStrategy desktopEnv
        (freshComponent "local" false false true [⟨"UCabc"⟩, ⟨"UCabc"⟩]) false = .local := by
      decide
    unfold taskVideos
    rw [hs, getChannelLive_ok .local desktopEnv (fun _ => liveWorld) ⟨"UCabc"⟩ 0 _ _ h0]
  have t1 : taskVideos desktopEnv (fun _ => failingWorld) false
      (freshComponent "local" false false true [⟨"UCabc"⟩, ⟨"UCabc"⟩]) ⟨"UCabc"⟩ = [] := by
    have hs : startStrategy desktopEnv
        (freshComponent "local" false false true [⟨"UCabc"⟩, ⟨"UCabc"⟩]) false = .local := by
      decide
    unfold taskVideos
    rw [hs]
    simp [getChannelLive_allFail _ _ _ (allFail_failingWorld ⟨"UCabc"⟩), nextOnFailure,
      freshComponent]
  simp [forcesRss, freshComponent]
  exact ⟨by simpa [freshComponent] using t0, by simpa [freshComponent] using t1⟩

theorem chainFrom_index_ge (channel : Channel) (l : List Strategy) :
    ∀ n, ∀ a ∈ chainFrom channel l n, n ≤ a.2.2 := by
  induction l with
  | nil => intro n a ha; simp [chainFrom] at ha
  | cons s rest ih =>
    intro n a ha
    rcases List.mem_cons.mp ha with rfl | ha
    · exact le_refl _
    · exact Nat.le_of_succ_le (ih (n + 1) a ha)

/-- A run entered with `failedAttempts = 0` records its start strategy first
and numbers every later attempt from 1. -/
theorem run_start (env : Env) (w : Nat → AttemptWorld) (channel : Channel) (s : Strategy)
    (c : Component) :
    ∃ T, (getChannelLive s env w channel 0 c).2.attempts = c.attempts ++ (channel, s, 0) :: T
      ∧ ∀ a ∈ T, 1 ≤ a.2.2 := by
  obtain ⟨k, _, hatt⟩ := attempts_chain env w channel s s 0 c (escalation s).tail
    (by cases s <;> rfl)
  exact ⟨chainFrom channel ((escalation s).tail.take k) 1, by simpa [chainFrom] using hatt,
    chainFrom_index_ge channel _ 1⟩

theorem channelTask_attempts (env : Env) (w : Nat → AttemptWorld) (useRss : Bool)
    (channels : List Channel) (index : Nat) (channel : Channel) (st : Cycle) :
    (channelTask env w useRss channels index channel st).self.attempts
      = (getChannelLive (startStrategy env st.self useRss) env w channel 0 st.self).2.attempts
    ∧ (channelTask env w useRss channels index channel st).self.toasts
      = (getChannelLive (startStrategy env st.self useRss) env w channel 0 st.self).2.toasts := by
  rw [channelTask_eq]
  exact ⟨rfl, rfl⟩

/-- Every attempt of the tasks of a cycle with index 0 is at the start
strategy, and the tasks fire no forcing-RSS notice. -/
theorem settleTasks_trace (env : Env) (W : Nat → Nat → AttemptWorld) (useRss : Bool)
    (channels : List Channel) (self : Component) (settle : List Nat) (st : Cycle)
    (hp : st.self.backendPreference = self.backendPreference) :
    (settleTasks env W useRss channels settle st).self.backendPreference
        = self.backendPreference
      ∧ (settleTasks env W useRss channels settle st).self.useRssFeeds = st.self.useRssFeeds
      ∧ (∃ T, (settleTasks env W useRss channels settle st).self.attempts
            = st.self.attempts ++ T
          ∧ ∀ a ∈ T, a.2.2 = 0 → a.2.1 = startStrategy env self useRss)
      ∧ ∃ T, (settleTasks env W useRss channels settle st).self.toasts = st.self.toasts ++ T
          ∧ Toast.forcingRSS ∉ T := by
  refine settleTasks_induct env W useRss channels
    (fun st' => st'.self.backendPreference = self.backendPreference
      ∧ st'.self.useRssFeeds = st.self.useRssFeeds
      ∧ (∃ T, st'.self.attempts = st.self.attempts ++ T
          ∧ ∀ a ∈ T, a.2.2 = 0 → a.2.1 = startStrategy env self useRss)
      ∧ ∃ T, st'.self.toasts = st.self.toasts ++ T ∧ Toast.forcingRSS ∉ T)
    ?_ settle st ⟨hp, rfl, ⟨[], by simp, by simp⟩, ⟨[], by simp, by simp⟩⟩
  intro st' index channel _ ⟨hp', hu, ⟨T, hT, hT0⟩, ⟨U, hU, hU0⟩⟩
  have hpr := channelTask_prefs env (W index) useRss channels index channel st'
  have hat := channelTask_attempts env (W index) useRss channels index channel st'
  obtain ⟨T', hT', hT1⟩ := run_start env (W index) channel
    (startStrategy env st'.self useRss) st'.self
  obtain ⟨U', hU', hU1⟩ := getChannelLive_toasts env (W index) channel
    (startStrategy env st'.self useRss) 0 st'.self
  refine ⟨hpr.1.trans hp', hpr.2.2.trans hu, ⟨T ++ (channel, startStrategy env st'.self useRss, 0) :: T', ?_, ?_⟩,
    ⟨U ++ U', ?_, ?_⟩⟩
  · rw [hat.1, hT', hT]; simp
  · intro a ha h0
    rcases List.mem_append.mp ha with ha | ha
    · exact hT0 a ha h0
    · rcases List.mem_cons.mp ha with rfl | ha
      · exact startStrategy_congr env _ _ useRss hp'
      · have := hT1 a ha
        omega
  · rw [hat.2, hU', hU]; simp
  · simp [hU0, hU1]

/-- The task of every settled channel records its start strategy. -/
theorem settleTasks_started (env : Env) (W : Nat → Nat → AttemptWorld) (useRss : Bool)
    (channels : List Channel) (self : Component) (settle : List Nat) :
    ∀ st : Cycle, st.self.backendPreference = self.backendPreference →
      ∀ i ∈ settle, ∀ channel, channels[i]? = some channel →
        (channel, startStrategy env self useRss, 0)
          ∈ newAttempts st.self (settleTasks env W useRss channels settle st).self := by
  induction settle with
  | nil => intro st _ i hi; simp at hi
  | cons index rest ih =>
    intro st hp i hi channel hch
    unfold settleTasks
    rcases List.mem_cons.mp hi with rfl | hi'
    · rw [hch]
      simp only
      have hat := channelTask_attempts env (W i) useRss channels i channel st
      obtain ⟨T', hT', _⟩ := run_start env (W i) channel
        (startStrategy env st.self useRss) st.self
      obtain ⟨_, _, ⟨T, hT, _⟩, _⟩ := settleTasks_trace env W useRss channels self rest
        (channelTask env (W i) useRss channels i channel st)
        ((channelTask_prefs env (W i) useRss channels i channel st).1.trans hp)
      unfold newAttempts
      rw [hT, hat.1, hT', startStrategy_congr env _ _ useRss hp]
      simp
    · have key : ∀ st' : Cycle, st'.self.backendPreference = self.backendPreference →
          st.self.attempts.length ≤ st'.self.attempts.length →
          (channel, startStrategy env self useRss, 0)
            ∈ newAttempts st.self (settleTasks env W useRss channels rest st').self := by
        intro st' hp' hlen
        exact List.drop_subset_drop_left _ hlen (ih st' hp' i hi' channel hch)
      cases hc : channels[index]? with
      | none => simpa using key st hp (le_refl _)
      | some c =>
        have hat := channelTask_attempts env (W index) useRss channels index c st
        obtain ⟨T', hT', _⟩ := run_start env (W index) c
          (startStrategy env st.self useRss) st.self
        exact key _ ((channelTask_prefs env (W index) useRss channels index c st).1.trans hp)
          (by rw [hat.1, hT']; simp)

theorem cycleStart_toasts (self : Component) :
    (cycleStart self).toasts
      = self.toasts ++ (if forcesRss self then [Toast.forcingRSS] else []) := by
  unfold cycleStart
  split <;> simp [Component.showToast, Component.updateShowProgressBar,
    Component.setProgressBarPercentage]

/-- The starting strategies, the forcing-RSS notices and the stored feed mode
of a cycle, for the feed mode `forcesRss self || self.useRssFeeds`. -/
theorem cycle_override (env : Env) (W : Nat → Nat → AttemptWorld) (settle : List Nat)
    (self : Component) :
    (∀ a ∈ newAttempts self (loadVideosForSubscriptionsFromRemote env W settle self),
        a.2.2 = 0 → a.2.1 = startStrategy env self (forcesRss self || self.useRssFeeds))
      ∧ (∀ i ∈ settle, ∀ channel, self.activeSubscriptionList[i]? = some channel →
          (channel, startStrategy env self (forcesRss self || self.useRssFeeds), 0)
            ∈ newAttempts self (loadVideosForSubscriptionsFromRemote env W settle self))
      ∧ (newToasts self (loadVideosForSubscriptionsFromRemote env W settle self)).count
          Toast.forcingRSS = (if forcesRss self then 1 else 0)
      ∧ (loadVideosForSubscriptionsFromRemote env W settle self).useRssFeeds
          = self.useRssFeeds := by
  by_cases hN : self.activeSubscriptionList.length = 0
  · have hnil : self.activeSubscriptionList = [] := List.length_eq_zero.mp hN
    have hf : forcesRss self = false := by simp [forcesRss, hN]
    unfold loadVideosForSubscriptionsFromRemote
    rw [if_pos hN]
    refine ⟨by simp [newAttempts], ?_, by simp [newToasts, hf], rfl⟩
    intro i _ channel hch
    rw [hnil] at hch
    simp at hch
  · have hpre := cycleStart_prefs self
    obtain ⟨_, hu, ⟨T, hT, hT0⟩, ⟨U, hU, hU0⟩⟩ := settleTasks_trace env W
      (forcesRss self || self.useRssFeeds) self.activeSubscriptionList self settle
      { self := cycleStart self, channelCount := 0, settled := [] } hpre.1
    have hstart := settleTasks_started env W (forcesRss self || self.useRssFeeds)
      self.activeSubscriptionList self settle
      { self := cycleStart self, channelCount := 0, settled := [] } hpre.1
    rw [loadVideos_eq env W settle self hN]
    simp only [cycleEnd, newAttempts, newToasts] at *
    rw [hpre.2.2.2.2] at hT hstart
    refine ⟨?_, ?_, ?_, hu.trans hpre.2.2.1⟩
    · rw [hT]; simpa using hT0
    · exact hstart
    · rw [hU, cycleStart_toasts]
      by_cases hf : forcesRss self = true
      · simp [hf, List.count_eq_zero_of_not_mem hU0]
      · simp [hf, List.count_eq_zero_of_not_mem hU0]

/-- C7: with 125 or more subscriptions and the feed mode not RSS, every task of the cycle
starts at an RSS strategy, one forcing-RSS notice is fired and the stored feed
mode is unchanged; with 124 or fewer, no notice is fired and every task starts at
the strategy of the stored feed mode -/
theorem large_list_rss_override (env : Env) (W : Nat → Nat → AttemptWorld)
    (settle : List Nat) (self : Component) :
    (125 ≤ self.activeSubscriptionList.length → self.useRssFeeds = false →
        (startStrategy env self true).isRSS = true
          ∧ (∀ a ∈ newAttempts self (loadVideosForSubscriptionsFromRemote env W settle self),
              a.2.2 = 0 → a.2.1 = startStrategy env self true)
          ∧ (∀ i ∈ settle, ∀ channel, self.activeSubscriptionList[i]? = some channel →
              (channel, startStrategy env self true, 0)
                ∈ newAttempts self (loadVideosForSubscriptionsFromRemote env W settle self))
          ∧ (newToasts self (loadVideosForSubscriptionsFromRemote env W settle self)).count
              Toast.forcingRSS = 1
          ∧ (loadVideosForSubscriptionsFromRemote env W settle self).useRssFeeds
              = self.useRssFeeds)
      ∧ (self.activeSubscriptionList.length ≤ 124 →
          (∀ a ∈ newAttempts self (loadVideosForSubscriptionsFromRemote env W settle self),
              a.2.2 = 0 → a.2.1 = startStrategy env self self.useRssFeeds)
          ∧ (∀ i ∈ settle, ∀ channel, self.activeSubscriptionList[i]? = some channel →
              (channel, startStrategy env self self.useRssFeeds, 0)
                ∈ newAttempts self (loadVideosForSubscriptionsFromRemote env W settle self))
          ∧ (newToasts self (loadVideosForSubscriptionsFromRemote env W settle self)).count
              Toast.forcingRSS = 0
          ∧ (loadVideosForSubscriptionsFromRemote env W settle self).useRssFeeds
              = self.useRssFeeds) := by
  have h := cycle_override env W settle self
  constructor
  · intro hN hu
    have hf : forcesRss self = true := by simp [forcesRss, hN, hu]
    rw [hf] at h
    refine ⟨?_, by simpa using h.1, by simpa using h.2.1, by simpa using h.2.2.1, h.2.2.2⟩
    unfold startStrategy
    split <;> rfl
  · intro hN
    have hf : forcesRss self = false := by
      have : ¬ 125 ≤ self.activeSubscriptionList.length := by omega
      simp [forcesRss, this]
    rw [hf] at h
    exact ⟨by simpa using h.1, by simpa using h.2.1, by simpa using h.2.2.1, h.2.2.2⟩

/-- C7 (witness): 125 subscriptions with the feed mode not RSS, and one subscription -/
theorem large_list_rss_override_witness :
    (125 ≤ (freshComponent "local" true false true
          ((List.range 125).map (fun i => Channel.mk (toString i)))).activeSubscriptionList.length
      ∧ (freshComponent "local" true false true
          ((List.range 125).map (fun i => Channel.mk (toString i)))).useRssFeeds = false
      ∧ (newToasts (freshComponent "local" true false true
            ((List.range 125).map (fun i => Channel.mk (toString i))))
          (loadVideosForSubscriptionsFromRemote desktopEnv (fun _ _ => failingWorld)
            (List.range 125)
            (freshComponent "local" true false true
              ((List.range 125).map (fun i => Channel.mk (toString i)))))).count
                Toast.forcingRSS = 1)
      ∧ ((freshComponent "local" true false true [⟨"UCabc"⟩]).activeSubscriptionList.length
          ≤ 124
        ∧ (newToasts (freshComponent "local" true false true [⟨"UCabc"⟩])
          (loadVideosForSubscriptionsFromRemote desktopEnv (fun _ _ => failingWorld) [0]
            (freshComponent "local" true false true [⟨"UCabc"⟩]))).count
              Toast.forcingRSS = 0) :=
  ⟨⟨by simp [freshComponent], rfl,
    ((large_list_rss_override desktopEnv (fun _ _ => failingWorld) (List.range 125)
      (freshComponent "local" true false true
        ((List.range 125).map (fun i => Channel.mk (toString i))))).1
        (by simp [freshComponent]) rfl).2.2.2.1⟩,
    ⟨by decide,
    ((large_list_rss_override desktopEnv (fun _ _ => failingWorld) [0]
      (freshComponent "local" true false true [⟨"UCabc"⟩])).2 (by decide)).2.2.1⟩⟩

/-! ## Desktop-context gating -/

theorem startStrategy_remote (env : Env) (c : Component) (useRss : Bool)
    (he : env.isElectron = false) : (startStrategy env c useRss).isLocal = false := by
  unfold startStrategy
  simp only [he, Bool.not_false, Bool.true_or, if_true]
  split <;> rfl

theorem settleTasks_remote_only (env : Env) (W : Nat → Nat → AttemptWorld) (useRss : Bool)
    (channels : List Channel) (he : env.isElectron = false) (settle : List Nat) (st : Cycle) :
    ∃ T, (settleTasks env W useRss channels settle st).self.attempts = st.self.attempts ++ T
      ∧ ∀ a ∈ T, a.2.1.isLocal = false := by
  refine settleTasks_induct env W useRss channels
    (fun st' => ∃ T, st'.self.attempts = st.self.attempts ++ T
      ∧ ∀ a ∈ T, a.2.1.isLocal = false)
    ?_ settle st ⟨[], by simp, by simp⟩
  intro st' index channel _ ⟨T, hT, hT0⟩
  have hat := channelTask_attempts env (W index) useRss channels index channel st'
  obtain ⟨T', hT', hT1⟩ := run_remote_only env (W index) channel he
    (startStrategy env st'.self useRss) 0 st'.self (startStrategy_remote env _ _ he)
  refine ⟨T ++ T', by rw [hat.1, hT', hT]; simp, ?_⟩
  intro a ha
  rcases List.mem_append.mp ha with ha | ha
  · exact hT0 a ha
  · exact hT1 a ha

/-- C8: outside the desktop application a cycle attempts remote strategies only, and in
every run a remote attempt is followed by a local one only when the desktop
application and the fallback preference both hold -/
theorem desktop_context_gating (env : Env) (W : Nat → Nat → AttemptWorld)
    (settle : List Nat) (self : Component) :
    (env.isElectron = false →
        ∀ a ∈ newAttempts self (loadVideosForSubscriptionsFromRemote env W settle self),
          a.2.1.isLocal = false)
      ∧ ∀ (s : Strategy) (w : Nat → AttemptWorld) (channel : Channel) (n : Nat)
          (c : Component),
          List.Chain' (GatedStep env.isElectron c.backendFallback)
            (newAttempts c (getChannelLive s env w channel n c).2) := by
  constructor
  · intro he
    by_cases hN : self.activeSubscriptionList.length = 0
    · unfold loadVideosForSubscriptionsFromRemote
      rw [if_pos hN]
      simp [newAttempts]
    · obtain ⟨T, hT, hT0⟩ := settleTasks_remote_only env W
        (forcesRss self || self.useRssFeeds) self.activeSubscriptionList he settle
        { self := cycleStart self, channelCount := 0, settled := [] }
      rw [loadVideos_eq env W settle self hN]
      simp only [cycleEnd, newAttempts] at *
      rw [(cycleStart_prefs self).2.2.2.2] at hT
      rw [hT]
      simpa using hT0
  · intro s w channel n c
    obtain ⟨T, hT, hchain⟩ := run_gated env w channel s n c
    rw [newAttempts_append _ _ _ hT]
    exact hchain

/-- C8 (witness): the web build with the local backend preferred and fallback on -/
theorem desktop_context_gating_witness :
    webEnv.isElectron = false
      ∧ ∀ a ∈ newAttempts (freshComponent "local" true false true [⟨"UCabc"⟩])
          (loadVideosForSubscriptionsFromRemote webEnv (fun _ _ => failingWorld) [0]
            (freshComponent "local" true false true [⟨"UCabc"⟩])),
          a.2.1.isLocal = false :=
  ⟨rfl, (desktop_context_gating webEnv (fun _ _ => failingWorld) [0]
    (freshComponent "local" true false true [⟨"UCabc"⟩])).1 rfl⟩

theorem filterMap_length_full {α β : Type} (f : α → Option β) :
    ∀ l : List α, l.length ≤ (l.filterMap f).length → ∀ x ∈ l, (f x).isSome = true := by
  intro l
  induction l with
  | nil => intro _ x hx; simp at hx
  | cons a l ih =>
    intro hlen x hx
    cases hfa : f a with
    | none =>
      have h1 := List.length_filterMap_le f l
      simp [List.filterMap_cons, hfa] at hlen
      omega
    | some b =>
      simp [List.filterMap_cons, hfa] at hlen
      rcases List.mem_cons.mp hx with rfl | hx
      · simp [hfa]
      · exact ih hlen x hx

theorem present_iff (self : Component) :
    videoCacheForAllActiveProfileChannelsPresent self = true ↔
      (cacheEntriesForAllActiveProfileChannels self).length ≠ 0
        ∧ self.activeSubscriptionList.length
            ≤ (cacheEntriesForAllActiveProfileChannels self).length
        ∧ ∀ e ∈ cacheEntriesForAllActiveProfileChannels self, e.videos ≠ none := by
  unfold videoCacheForAllActiveProfileChannelsPresent
  by_cases h0 : (cacheEntriesForAllActiveProfileChannels self).length = 0
  · simp [h0]
  · by_cases h1 : (cacheEntriesForAllActiveProfileChannels self).length
        < self.activeSubscriptionList.length
    · simp only [h0, h1, if_true, if_false]
      constructor
      · intro h; exact absurd h (by simp)
      · intro h; omega
    · simp only [h0, h1, if_false, List.all_eq_true]
      constructor
      · intro h
        refine ⟨h0, by omega, fun e he => ?_⟩
        have := h e he
        intro hn
        simp [hn] at this
      · intro h e he
        exact Option.isSome_iff_ne_none.mpr (h.2.2 e he)

theorem forEach_ok (self : Component) :
    ∀ (l : List Channel) (videoList : List Video),
      (∀ channel ∈ l, ∃ entry videos, self.getLiveCacheByChannel channel.id = some entry
        ∧ entry.videos = some videos) →
      loadVideosFromCache_forEach self l videoList
        = .ok (videoList ++ l.flatMap (cachedVideos self)) := by
  intro l
  induction l with
  | nil => intro videoList _; simp [loadVideosFromCache_forEach]
  | cons channel rest ih =>
    intro videoList h
    obtain ⟨entry, videos, he, hv⟩ := h channel (by simp)
    unfold loadVideosFromCache_forEach
    simp only [he, hv]
    rw [ih _ (fun c hc => h c (by simp [hc]))]
    simp [cachedVideos, he, hv]

theorem fast_path (env : Env) (self : Component)
    (h : videoCacheForAllActiveProfileChannelsPresent self = true) :
    loadVideosFromCacheForAllActiveProfileChannels env self
      = .ok { self with
          videoList := env.updateVideoListAfterProcessing
            (self.activeSubscriptionList.flatMap (cachedVideos self))
          isLoading := false } := by
  obtain ⟨_, hlen, hall⟩ := (present_iff self).mp h
  have hfull := filterMap_length_full
    (fun channel : Channel => self.getLiveCacheByChannel channel.id)
    self.activeSubscriptionList hlen
  have hok := forEach_ok self self.activeSubscriptionList [] (by
    intro channel hc
    obtain ⟨entry, he⟩ := Option.isSome_iff_exists.mp (hfull channel hc)
    have hmem : entry ∈ cacheEntriesForAllActiveProfileChannels self :=
      List.mem_filterMap.mpr ⟨channel, hc, he⟩
    obtain ⟨videos, hv⟩ := Option.ne_none_iff_exists'.mp (hall entry hmem)
    exact ⟨entry, videos, he, hv⟩)
  unfold loadVideosFromCacheForAllActiveProfileChannels
  rw [hok]
  simp

/-- C4 (amended): the dispatcher serves from the cache exactly when at least one entry is
cached, no subscription lacks an entry and no cached list is null; it then changes
only the visible list and the loading flag. Otherwise it leaves the decision to the
fetch-automatically preference: on, the refresh cycle runs and every settled
channel is attempted; off, the list is cleared and nothing is attempted -/
theorem cache_serve_threshold (env : Env) (W : Nat → Nat → AttemptWorld)
    (settle : List Nat) (self : Component) :
    (((cacheEntriesForAllActiveProfileChannels self).length
          < self.activeSubscriptionList.length
        ∨ (∃ e ∈ cacheEntriesForAllActiveProfileChannels self, e.videos = none)
        ∨ (cacheEntriesForAllActiveProfileChannels self).length = 0) →
      loadVideosFromCacheSometimes env W settle self
          = .ok (maybeLoadVideosForSubscriptionsFromRemote env W settle self)
        ∧ (self.fetchSubscriptionsAutomatically = true →
            maybeLoadVideosForSubscriptionsFromRemote env W settle self
                = loadVideosForSubscriptionsFromRemote env W settle self
              ∧ ∀ i ∈ settle, ∀ channel, self.activeSubscriptionList[i]? = some channel →
                  ∃ s, (channel, s, 0) ∈ newAttempts self
                    (maybeLoadVideosForSubscriptionsFromRemote env W settle self))
        ∧ (self.fetchSubscriptionsAutomatically = false →
            maybeLoadVideosForSubscriptionsFromRemote env W settle self
              = { self with videoList := [], attemptedFetch := false, isLoading := false }))
      ∧ ((self.activeSubscriptionList.length
            ≤ (cacheEntriesForAllActiveProfileChannels self).length
          ∧ 1 ≤ (cacheEntriesForAllActiveProfileChannels self).length
          ∧ ∀ e ∈ cacheEntriesForAllActiveProfileChannels self, e.videos ≠ none) →
        loadVideosFromCacheSometimes env W settle self
          = .ok { self with
              videoList := env.updateVideoListAfterProcessing
                (self.activeSubscriptionList.flatMap (cachedVideos self))
              isLoading := false }) := by
  constructor
  · intro h
    have hnot : videoCacheForAllActiveProfileChannelsPresent self = false := by
      cases hp : videoCacheForAllActiveProfileChannelsPresent self with
      | false => rfl
      | true =>
        obtain ⟨h0, hlen, hall⟩ := (present_iff self).mp hp
        rcases h with h | ⟨e, he, hn⟩ | h
        · omega
        · exact absurd hn (hall e he)
        · exact absurd h h0
    refine ⟨by simp [loadVideosFromCacheSometimes, hnot], ?_, ?_⟩
    · intro ha
      have heq : maybeLoadVideosForSubscriptionsFromRemote env W settle self
          = loadVideosForSubscriptionsFromRemote env W settle self := by
        simp [maybeLoadVideosForSubscriptionsFromRemote, ha]
      rw [heq]
      refine ⟨rfl, fun i hi channel hch => ⟨_, (cycle_override env W settle self).2.1 i hi channel hch⟩⟩
    · intro ha
      simp [maybeLoadVideosForSubscriptionsFromRemote, ha]
  · intro ⟨hlen, h1, hall⟩
    have hp : videoCacheForAllActiveProfileChannelsPresent self = true :=
      (present_iff self).mpr ⟨by omega, hlen, hall⟩
    simp only [loadVideosFromCacheSometimes, hp, if_true]
    exact fast_path env self hp

/-- C4 (witness): one subscription whose cache entry holds an empty list -/
theorem cache_serve_threshold_witness :
    (cachedComponent.activeSubscriptionList.length
          ≤ (cacheEntriesForAllActiveProfileChannels cachedComponent).length
        ∧ 1 ≤ (cacheEntriesForAllActiveProfileChannels cachedComponent).length
        ∧ ∀ e ∈ cacheEntriesForAllActiveProfileChannels cachedComponent, e.videos ≠ none)
      ∧ loadVideosFromCacheSometimes desktopEnv (fun _ _ => failingWorld) [0] cachedComponent
          = .ok { cachedComponent with
              videoList := desktopEnv.updateVideoListAfterProcessing
                (cachedComponent.activeSubscriptionList.flatMap
                  (cachedVideos cachedComponent))
              isLoading := false } :=
  ⟨⟨by decide, by decide, by decide⟩,
    (cache_serve_threshold desktopEnv (fun _ _ => failingWorld) [0] cachedComponent).2
      ⟨by decide, by decide, by decide⟩⟩

/-- C4 (counterexample): with the fetch-automatically preference off, one subscription
and an empty cache lead to no attempt at all; and with no subscription and no
cached entry the fast-path test is false -/
theorem cache_serve_threshold_counterexample :
    ((cacheEntriesForAllActiveProfileChannels
          (freshComponent "local" true false false [⟨"UCabc"⟩])).length
        < (freshComponent "local" true false false [⟨"UCabc"⟩]).activeSubscriptionList.length
      ∧ loadVideosFromCacheSometimes desktopEnv (fun _ _ => failingWorld) [0]
          (freshComponent "local" true false false [⟨"UCabc"⟩])
        = .ok (freshComponent "local" true false false [⟨"UCabc"⟩]))
      ∧ ((freshComponent "local" true false true []).activeSubscriptionList.length
          ≤ (cacheEntriesForAllActiveProfileChannels
              (freshComponent "local" true false true [])).length
        ∧ (∀ e ∈ cacheEntriesForAllActiveProfileChannels
              (freshComponent "local" true false true []), e.videos ≠ none)
        ∧ videoCacheForAllActiveProfileChannelsPresent
            (freshComponent "local" true false true []) = false) := by
  refine ⟨⟨by decide, rfl⟩, by decide, by decide, by decide⟩

end SubscriptionsLive
